import Mathlib

/-!
Verification of the DexScreener Solana screener core against its
natural-language specification.

The Python sources are shallowly embedded: prices and other float-valued
quantities become `ℚ`, timestamps become `Int` (the persisted model always
writes an integer `snapshot_ts`), nullable columns become `Option`,
and each stateful operation becomes a pure function from its explicit
database reads to its written row values.
-/

namespace Screener

/-! ## Configuration constants (config.py) -/

def DROP_THRESHOLD : ℚ := 50
def LIQ_MIN : ℚ := 10000
def VOL_M5_MIN : ℚ := 500
def SELLS_MIN : Int := 5

def STRATEGY_MIN_LIQ : ℚ := 10000
def STRATEGY_MIN_VOL : ℚ := 500
def STRATEGY_MIN_TXNS : Int := 5

def WL1_MIN_DROP : ℚ := 25
def WL2_MIN_DROP : ℚ := 35
def WL3_MIN_DROP : ℚ := 45
def SIGNAL_MIN_DROP : ℚ := 50
def SIGNAL_MAX_DROP : ℚ := 60

def WL1_MIN_TXNS : Int := 5
def WL2_MIN_TXNS : Int := 7
def WL3_MIN_TXNS : Int := 10
def WL1_MIN_LIQ : ℚ := 10000
def WL2_MIN_LIQ : ℚ := 15000
def WL3_MIN_LIQ : ℚ := 20000

def TXNS_SIGNAL : Int := 10
def BUYS_MIN : Int := 5
def LIQ_SIGNAL : ℚ := 5000

def TP1_PCT : ℚ := 40
def SL_PCT : ℚ := -50
def TRIGGER_EVAL_MAX_AGE_SEC : Int := 86400
def TRIGGER_EVAL_MIN_SNAPSHOTS : Nat := 2

def SELF_CHECK_AGE_HOURS : ℚ := 24
def DEFAULT_PRUNE_MAX_AGE_HOURS : ℚ := 24

/-! ## strategy/engine.py: `_classify_by_drop` -/

/-- Embedding of `engine._classify_by_drop(drop, liq, txns, buys)`. -/
def classify_by_drop (drop liq : ℚ) (txns buys : Int) : String :=
  if drop < WL1_MIN_DROP then "REJECT"
  else if SIGNAL_MIN_DROP ≤ drop ∧ drop ≤ SIGNAL_MAX_DROP then
    if txns ≥ TXNS_SIGNAL ∧ buys ≥ BUYS_MIN ∧ liq ≥ LIQ_SIGNAL then "SIGNAL" else "REJECT"
  else
    let cand :=
      if WL3_MIN_DROP ≤ drop ∧ drop < SIGNAL_MIN_DROP then "WATCHLIST_L3"
      else if WL2_MIN_DROP ≤ drop ∧ drop < WL3_MIN_DROP then "WATCHLIST_L2"
      else "WATCHLIST_L1"
    let cand :=
      if cand = "WATCHLIST_L3" ∧ (txns < WL3_MIN_TXNS ∨ liq < WL3_MIN_LIQ) then "WATCHLIST_L2" else cand
    let cand :=
      if cand = "WATCHLIST_L2" ∧ (txns < WL2_MIN_TXNS ∨ liq < WL2_MIN_LIQ) then "WATCHLIST_L1" else cand
    if cand = "WATCHLIST_L1" ∧ (txns < WL1_MIN_TXNS ∨ liq < WL1_MIN_LIQ) then "REJECT" else cand

/-- Embedding of `engine.compute_drop_from_ath`. -/
def compute_drop_from_ath (ath_price current_price : ℚ) : ℚ :=
  if ath_price ≤ 0 then 0
  else
    let current := if current_price < 0 then 0 else current_price
    (ath_price - current) / ath_price * 100

/-! ## client.py: `DexScreenerClient._request` retry loop -/

/-- Per-attempt network behavior: the server answers with a status code,
or the attempt fails with a timeout / connect error. -/
inductive Attempt where
  | status (code : Nat)
  | timeoutFail
  | connectFail
  deriving Repr, DecidableEq

/-- Exceptions raised inside the try-block of `_request`
(all of them are caught by its `except` clause). -/
inductive HttpxError where
  | statusError (code : Nat)
  | timeoutError
  | connectError
  deriving Repr, DecidableEq

/-- One attempt of `_request`: the explicit raise for 429 / 5xx,
then `resp.raise_for_status()` (which raises `HTTPStatusError`
for every 4xx status as well), then `resp.json()` on success. -/
def tryAttempt : Attempt → Except HttpxError Nat
  | .status code =>
      if code = 429 ∨ code ≥ 500 then .error (.statusError code)
      else if code ≥ 400 then .error (.statusError code)
      else .ok code
  | .timeoutFail => .error .timeoutError
  | .connectFail => .error .connectError

/-- Result of `_request`: success with the number of attempts performed and the
final status code, failure (re-raise of `last_exc`) after exhausting retries,
or the `RuntimeError` path when the loop never ran. -/
inductive ReqOutcome where
  | success (attemptsUsed : Nat) (code : Nat)
  | failure (attemptsUsed : Nat) (err : HttpxError)
  | noAttempt
  deriving Repr, DecidableEq

/-- The retry loop of `_request`, embedded over a per-attempt network
behavior `net` (attempt index ↦ outcome).  `fuel` is the number of loop
iterations remaining (`max_retries - idx`). -/
def requestAux (net : Nat → Attempt) (idx : Nat) : Nat → ReqOutcome
  | 0 => .noAttempt
  | fuel + 1 =>
      match tryAttempt (net idx) with
      | .ok code => .success (idx + 1) code
      | .error e => if fuel = 0 then .failure (idx + 1) e else requestAux net (idx + 1) fuel

/-- Embedding of `DexScreenerClient._request` with `max_retries` attempts. -/
def requestModel (net : Nat → Attempt) (maxRetries : Nat) : ReqOutcome :=
  requestAux net 0 maxRetries

/-- A network that answers 404 on the first attempt and 200 afterwards. -/
def net404then200 : Nat → Attempt :=
  fun i => if i = 0 then .status 404 else .status 200

/-! ## storage/sqlite.py: data model

One row of each table, with nullable columns as `Option`.  The persisted
snapshot model (`models.PairSnapshot`) always carries an integer
`snapshot_ts`, so the timestamp is modelled as `Int`. -/

/-- A snapshots-table row (the columns the analysed operations read). -/
structure Snap where
  pair_address : String
  price_usd : Option ℚ
  volume_m5 : Option ℚ
  txns_m5_buys : Option Int
  txns_m5_sells : Option Int
  snapshot_ts : Int
  deriving Repr, DecidableEq

/-- A pairs-table row (the columns the analysed operations read). -/
structure PairRow where
  pair_address : String
  base_address : String
  quote_address : String
  price_usd : Option ℚ
  pair_created_at_ms : Option Int
  deriving Repr, DecidableEq

/-- A tokens-table row. -/
structure TokenRow where
  address : String
  deriving Repr, DecidableEq

/-- The store: tokens, pairs and snapshot history. -/
structure Db where
  tokens : List TokenRow
  pairs : List PairRow
  snapshots : List Snap
  deriving Repr, DecidableEq

/-- Python `int(...)` on a rational: truncation toward zero. -/
def pyTrunc (q : ℚ) : Int := q.num / (q.den : Int)

/-- Embedding of `normalize_since_ts`: Python `//` is floor division. -/
def normalize_since_ts (created_at_ms : Int) (snapshot_ts_is_ms : Bool) : Int :=
  if snapshot_ts_is_ms then created_at_ms else created_at_ms.fdiv 1000

/-- `SELECT MAX(snapshot_ts) FROM snapshots` (NULL on an empty table). -/
def maxSnapshotTs : List Snap → Option Int
  | [] => none
  | s :: rest => some (rest.foldl (fun m x => max m x.snapshot_ts) s.snapshot_ts)

/-- Embedding of `Database._detect_snapshot_ts_unit`: true (milliseconds) when
MAX(snapshot_ts) > 10^12, and also when the table is empty. -/
def detect_snapshot_ts_unit (db : Db) : Bool :=
  match maxSnapshotTs db.snapshots with
  | none => true
  | some m => decide (m > 10 ^ 12)

/-- Insert a snapshot into a ts-ascending list, after any row with an equal
or smaller timestamp (a stable ORDER BY snapshot_ts ASC). -/
def insertSnapByTs (x : Snap) : List Snap → List Snap
  | [] => [x]
  | y :: ys => if x.snapshot_ts < y.snapshot_ts then x :: y :: ys else y :: insertSnapByTs x ys

/-- Stable sort of snapshot rows by ascending snapshot_ts. -/
def sortSnapsByTs (l : List Snap) : List Snap :=
  l.foldl (fun acc x => insertSnapByTs x acc) []

/-- Embedding of `Database.iterate_snapshots(pair, since, until)`:
rows of the pair inside the inclusive bounds, ascending by snapshot_ts. -/
def iterate_snapshots (db : Db) (pair : String) (since_ts until_ts : Int) : List Snap :=
  sortSnapsByTs (db.snapshots.filter fun s =>
    decide (s.pair_address = pair ∧ since_ts ≤ s.snapshot_ts ∧ s.snapshot_ts ≤ until_ts))

/-- `ORDER BY snapshot_ts DESC LIMIT 1` over a row list (none when empty). -/
def maxTsSnap : List Snap → Option Snap
  | [] => none
  | s :: rest => some (rest.foldl (fun best x => if x.snapshot_ts > best.snapshot_ts then x else best) s)

/-- True when the row has a non-null positive price
(the `price_usd IS NOT NULL AND price_usd > 0` filter). -/
def snapHasPosPrice (s : Snap) : Bool :=
  match s.price_usd with
  | some p => decide (0 < p)
  | none => false

/-- The rows the snapshot branch of `fetch_latest_price` ranges over:
snapshots of the pair with a non-null positive price. -/
def posSnapRows (db : Db) (pair : String) : List Snap :=
  (db.snapshots.filter fun s => decide (s.pair_address = pair)).filter snapHasPosPrice

/-- Embedding of `Database.fetch_latest_price`: price of the latest snapshot
with a non-null positive price; else the pairs-table price_usd; else null. -/
def fetch_latest_price (db : Db) (pair : String) : Option ℚ :=
  match maxTsSnap (posSnapRows db pair) with
  | some s => s.price_usd
  | none =>
    match db.pairs.find? fun p => decide (p.pair_address = pair) with
    | some p => p.price_usd
    | none => none

/-- Modelled from the claim wording of C7 ("the price of the last snapshot if
the pair has any snapshot, else the Pair row price_usd, else null"): no
positive-price filter on the snapshot lookup. -/
def fetch_latest_price_claim (db : Db) (pair : String) : Option ℚ :=
  match maxTsSnap (db.snapshots.filter fun s => decide (s.pair_address = pair)) with
  | some s => s.price_usd
  | none =>
    match db.pairs.find? fun p => decide (p.pair_address = pair) with
    | some p => p.price_usd
    | none => none

/-! ## storage/sqlite.py: `fetch_activity_window`

In the schema of this repository the tx and volume columns always exist and
`_pick` selects `txns_m5_buys`, `txns_m5_sells` and `volume_m5`, so the
sums are always present in the returned mapping. -/

/-- Return value of `fetch_activity_window` for this schema. -/
structure ActivityOut where
  snapshots_count : Nat
  txns_sum : Int
  buys_sum : Int
  sells_sum : Int
  volume_sum : ℚ
  deriving Repr, DecidableEq

/-- Embedding of `Database.fetch_activity_window(pair, center_ts, window_sec)`. -/
def fetch_activity_window (db : Db) (pair : String) (center_ts : Int) (window_sec : ℚ) : ActivityOut :=
  let snapMs := detect_snapshot_ts_unit db
  let half : Int := pyTrunc (window_sec * (if snapMs then 1000 else 1) / 2)
  let ts_lo := center_ts - half
  let ts_hi := center_ts + half
  let rows := db.snapshots.filter fun s =>
    decide (s.pair_address = pair ∧ ts_lo ≤ s.snapshot_ts ∧ s.snapshot_ts ≤ ts_hi)
  { snapshots_count := rows.length
    txns_sum := (rows.map fun s => s.txns_m5_buys.getD 0 + s.txns_m5_sells.getD 0).sum
    buys_sum := (rows.map fun s => s.txns_m5_buys.getD 0).sum
    sells_sum := (rows.map fun s => s.txns_m5_sells.getD 0).sum
    volume_sum := (rows.map fun s => s.volume_m5.getD 0).sum }

/-- Modelled from the claim wording of C9: snapshot count over the half-open
window that includes the lower endpoint and excludes the upper one. -/
def activityCountHalfOpenLeft (db : Db) (pair : String) (ts_lo ts_hi : Int) : Nat :=
  db.snapshots.countP fun s =>
    decide (s.pair_address = pair ∧ ts_lo ≤ s.snapshot_ts ∧ s.snapshot_ts < ts_hi)

/-- Modelled from the claim wording of C9: snapshot count over the half-open
window that excludes the lower endpoint and includes the upper one. -/
def activityCountHalfOpenRight (db : Db) (pair : String) (ts_lo ts_hi : Int) : Nat :=
  db.snapshots.countP fun s =>
    decide (s.pair_address = pair ∧ ts_lo < s.snapshot_ts ∧ s.snapshot_ts ≤ ts_hi)

/-! ## storage/sqlite.py: `prune_by_pair_age` and `self_check_invariants` -/

/-- The "old pair" predicate of `prune_by_pair_age`:
`pair_created_at_ms < cutoff AND ... IS NOT NULL AND ... != 0`
(a NULL comparison selects nothing in SQL). -/
def pairIsOldPrune (cutoff_ms : Int) (p : PairRow) : Bool :=
  match p.pair_created_at_ms with
  | some c => decide (c < cutoff_ms ∧ c ≠ 0)
  | none => false

/-- The "old pair" predicate of `self_check_invariants`:
`IS NOT NULL AND > 0 AND < cutoff`. -/
def pairIsOldCheck (cutoff_ms : Int) (p : PairRow) : Bool :=
  match p.pair_created_at_ms with
  | some c => decide (0 < c ∧ c < cutoff_ms)
  | none => false

/-- `EXISTS (SELECT 1 FROM pairs p WHERE p.pair_address = s.pair_address AND <old>)`
with the prune predicate. -/
def snapHasOldPairPrune (pairs : List PairRow) (cutoff_ms : Int) (s : Snap) : Bool :=
  pairs.any fun p => decide (p.pair_address = s.pair_address) && pairIsOldPrune cutoff_ms p

/-- The same EXISTS with the self-check predicate. -/
def snapHasOldPairCheck (pairs : List PairRow) (cutoff_ms : Int) (s : Snap) : Bool :=
  pairs.any fun p => decide (p.pair_address = s.pair_address) && pairIsOldCheck cutoff_ms p

/-- `EXISTS (SELECT 1 FROM pairs p WHERE p.base_address = t.address OR p.quote_address = t.address)`. -/
def tokenReferenced (pairs : List PairRow) (t : TokenRow) : Bool :=
  pairs.any fun p => decide (p.base_address = t.address) || decide (p.quote_address = t.address)

/-- Embedding of `Database.prune_by_pair_age`: returns the three deletion
counts and the store after the call (unchanged in dry-run mode; the dry-run
token count is taken against the unmodified pairs table, as in the source).
Deletion order inside the transaction: snapshots of old pairs (judged against
the original pairs table), then old pairs, then orphan tokens (judged against
the remaining pairs). -/
def prune_by_pair_age (db : Db) (cutoff_ms : Int) (dry_run : Bool) : (Nat × Nat × Nat) × Db :=
  if dry_run then
    ((db.snapshots.countP (snapHasOldPairPrune db.pairs cutoff_ms),
      db.pairs.countP (pairIsOldPrune cutoff_ms),
      db.tokens.countP fun t => !tokenReferenced db.pairs t), db)
  else
    let snapshots' := db.snapshots.filter fun s => !snapHasOldPairPrune db.pairs cutoff_ms s
    let pairs' := db.pairs.filter fun p => !pairIsOldPrune cutoff_ms p
    let tokens' := db.tokens.filter fun t => tokenReferenced pairs' t
    ((db.snapshots.length - snapshots'.length,
      db.pairs.length - pairs'.length,
      db.tokens.length - tokens'.length),
     { tokens := tokens', pairs := pairs', snapshots := snapshots' })

/-- Embedding of `Database.self_check_invariants`:
(old pairs, snapshots of old pairs, orphan tokens). -/
def self_check_invariants (db : Db) (cutoff_ms : Int) : Nat × Nat × Nat :=
  (db.pairs.countP (pairIsOldCheck cutoff_ms),
   db.snapshots.countP (snapHasOldPairCheck db.pairs cutoff_ms),
   db.tokens.countP fun t => !tokenReferenced db.pairs t)

/-- The cutoff computed inside `prune_by_pair_age`:
`int((time.time() - max_age_hours * 3600) * 1000)`. -/
def prune_cutoff_ms (now : ℚ) (max_age_hours : ℚ) : Int :=
  pyTrunc ((now - max_age_hours * 3600) * 1000)

/-- The cutoff computed inside `self_check_invariants`:
`int((time.time() - SELF_CHECK_AGE_HOURS * 3600) * 1000)`. -/
def self_check_cutoff_ms (now : ℚ) : Int :=
  pyTrunc ((now - SELF_CHECK_AGE_HOURS * 3600) * 1000)

/-! ## storage/sqlite.py: `update_dump_watchlist_for_snapshot`

The per-snapshot state-machine update, as a pure function from its explicit
database reads (latest snapshot row, peak query result, the two most recent
rows, the pair liquidity) and the existing dump_watchlist row to the row
after the invocation (`none` = no row). -/

/-- A dump_watchlist row. -/
structure DumpEntry where
  state : String
  peak_price : ℚ
  peak_ts : Int
  low_price : ℚ
  low_ts : Int
  last_price : ℚ
  last_ts : Int
  drop_pct : ℚ
  volume_m5 : Option ℚ
  buys_m5 : Option Int
  sells_m5 : Option Int
  signal_ts : Option Int
  signal_price : Option ℚ
  added_at_ms : Int
  updated_at_ms : Int
  deriving Repr, DecidableEq

/-- The upsert block of `update_dump_watchlist_for_snapshot`: for an existing
row, the peak-raising UPDATE (guarded by stored peak < queried peak), the
low-lowering UPDATE, and the unconditional last/drop refresh; for a missing
row, the admission gate (drop ≥ 50, liq ≥ 10000, volume_m5 ≥ 500,
sells_m5 ≥ 5) and the DUMPING insert. -/
def dumpUpsert (last_price : ℚ) (last_ts : Int) (volume_m5 : Option ℚ)
    (buys_m5 sells_m5 : Option Int) (peak_price : ℚ) (peak_ts : Int)
    (drop_pct liq vol : ℚ) (sells : Int) (now_ms : Int) :
    Option DumpEntry → Option DumpEntry
  | some e =>
    let e1 :=
      if e.peak_price < peak_price then
        { e with updated_at_ms := now_ms, last_price := last_price, last_ts := last_ts,
                 drop_pct := drop_pct, volume_m5 := volume_m5, buys_m5 := buys_m5,
                 sells_m5 := sells_m5, peak_price := peak_price, peak_ts := peak_ts }
      else e
    let e2 :=
      if last_price < e.low_price then
        { e1 with low_price := last_price, low_ts := last_ts }
      else e1
    some { e2 with updated_at_ms := now_ms, last_price := last_price, last_ts := last_ts,
                   drop_pct := drop_pct, volume_m5 := volume_m5, buys_m5 := buys_m5,
                   sells_m5 := sells_m5 }
  | none =>
    if drop_pct < DROP_THRESHOLD ∨ liq < LIQ_MIN ∨ vol < VOL_M5_MIN ∨ sells < SELLS_MIN then
      none
    else
      some { state := "DUMPING", peak_price := peak_price, peak_ts := peak_ts,
             low_price := last_price, low_ts := last_ts,
             last_price := last_price, last_ts := last_ts, drop_pct := drop_pct,
             volume_m5 := volume_m5, buys_m5 := buys_m5, sells_m5 := sells_m5,
             signal_ts := none, signal_price := none,
             added_at_ms := now_ms, updated_at_ms := now_ms }

/-- The DUMPING → BOTTOMING transition of `update_dump_watchlist_for_snapshot`:
fires when the two most recent snapshots sit at or above low·1.003 and the
latest has buys ≥ sells·0.8. -/
def dumpBottoming (two_rows : List Snap) (e : DumpEntry) : DumpEntry :=
  match two_rows with
  | last_snap :: prev_snap :: _ =>
    if e.state = "DUMPING" then
      let threshold := e.low_price * (1003 / 1000)
      let p1 := last_snap.price_usd.getD 0
      let p2 := prev_snap.price_usd.getD 0
      let b1 := last_snap.txns_m5_buys.getD 0
      let s1 := last_snap.txns_m5_sells.getD 0
      if p1 ≥ threshold ∧ p2 ≥ threshold ∧ (b1 : ℚ) ≥ (s1 : ℚ) * (8 / 10) then
        { e with state := "BOTTOMING" }
      else e
    else e
  | _ => e

/-- The SIGNAL update of `update_dump_watchlist_for_snapshot`: on bounce ≥
low·1.01 with buys > sells and volume_m5 ≥ max(previous volume_m5, 300) it
stamps state, signal_ts and signal_price, but only when signal_ts is still
NULL (the WHERE signal_ts IS NULL guard). -/
def dumpSignalStamp (last_price : ℚ) (last_ts : Int) (prev_vol vol : ℚ)
    (buys sells : Int) (e3 : DumpEntry) : DumpEntry :=
  let vol_min := max prev_vol 300
  let bounce_ok := last_price ≥ e3.low_price * (101 / 100)
  if bounce_ok ∧ buys > sells ∧ vol ≥ vol_min then
    if e3.signal_ts = none then
      { e3 with state := "SIGNAL", signal_ts := some last_ts,
                signal_price := some last_price }
    else e3
  else e3

/-- The previous volume_m5 (the second most recent snapshot, coalesced to 0)
used by the SIGNAL volume condition. -/
def dumpPrevVol (two_rows : List Snap) : ℚ :=
  match two_rows with
  | _ :: prev_snap :: _ => prev_snap.volume_m5.getD 0
  | _ => 0

/-- The transition block of `update_dump_watchlist_for_snapshot`:
the BOTTOMING step followed by the SIGNAL update, with the previous
volume_m5 read from the second most recent snapshot. -/
def dumpTransitions (last_price : ℚ) (last_ts : Int) (two_rows : List Snap)
    (vol : ℚ) (buys sells : Int) (e : DumpEntry) : DumpEntry :=
  dumpSignalStamp last_price last_ts (dumpPrevVol two_rows)
    vol buys sells (dumpBottoming two_rows e)

/-- Embedding of `Database.update_dump_watchlist_for_snapshot`.
`last_row` is the newest snapshot of the pair, `peak_row` the result of the
peak query (ORDER BY price_usd DESC, snapshot_ts DESC over positive-price
rows), `two_rows` the two newest rows, `liq` the pairs-table liquidity
coalesced to 0. -/
def update_dump_watchlist_for_snapshot
    (last_row : Snap) (peak_row : Option (ℚ × Int)) (two_rows : List Snap)
    (liq : ℚ) (now_ms : Int) (existing : Option DumpEntry) : Option DumpEntry :=
  match last_row.price_usd with
  | none => existing
  | some last_price =>
    if last_price ≤ 0 then existing
    else
      match peak_row with
      | none => existing
      | some (peak_price, peak_ts) =>
        let last_ts := last_row.snapshot_ts
        let volume_m5 := last_row.volume_m5
        let buys_m5 := last_row.txns_m5_buys
        let sells_m5 := last_row.txns_m5_sells
        let drop_pct := (peak_price - last_price) / peak_price * 100
        let vol := volume_m5.getD 0
        let sells := sells_m5.getD 0
        match dumpUpsert last_price last_ts volume_m5 buys_m5 sells_m5
            peak_price peak_ts drop_pct liq vol sells now_ms existing with
        | none => none
        | some e =>
          let buys := buys_m5.getD 0
          if e.state = "SIGNAL" ∧ e.signal_ts ≠ none then some e
          else some (dumpTransitions last_price last_ts two_rows vol buys sells e)

/-- The row invariant of claim C4: drop_pct within [0, 100], peak above both
low and last, and a SIGNAL row carries its signal stamp. -/
def DumpInv (e : DumpEntry) : Prop :=
  0 ≤ e.drop_pct ∧ e.drop_pct ≤ 100 ∧
  e.low_price ≤ e.peak_price ∧ e.last_price ≤ e.peak_price ∧
  (e.state = "SIGNAL" → e.signal_ts ≠ none ∧ e.signal_price ≠ none)

/-! ## strategy/trigger_analyzer.py -/

/-- Return from entry, in percent. -/
def pctOf (entry p : ℚ) : ℚ := (p - entry) / entry * 100

/-- The single walk of `run_trigger_analysis` recording the first point at
which pct ≥ TP1_PCT and the first at which pct ≤ SL_PCT. -/
def walkAux (entry : ℚ) (tp1 sl : Option (Int × ℚ)) : List (Int × ℚ) → Option (Int × ℚ) × Option (Int × ℚ)
  | [] => (tp1, sl)
  | (ts, p) :: rest =>
    let pct := pctOf entry p
    let tp1' := if tp1 = none ∧ pct ≥ TP1_PCT then some (ts, p) else tp1
    let sl' := if sl = none ∧ pct ≤ SL_PCT then some (ts, p) else sl
    walkAux entry tp1' sl' rest

/-- Modelled from the spec wording: the first point (in time order) whose
return from entry is at least `thr` percent. -/
def first_hit_at_or_above (entry thr : ℚ) (pts : List (Int × ℚ)) : Option (Int × ℚ) :=
  pts.find? fun q => decide (pctOf entry q.2 ≥ thr)

/-- Modelled from the spec wording: the first point (in time order) whose
return from entry is at most `thr` percent. -/
def first_hit_at_or_below (entry thr : ℚ) (pts : List (Int × ℚ)) : Option (Int × ℚ) :=
  pts.find? fun q => decide (pctOf entry q.2 ≤ thr)

/-- Python `max` over a list (None on empty). -/
def qMax : List ℚ → Option ℚ
  | [] => none
  | x :: xs => some (xs.foldl max x)

/-- Python `min` over a list (None on empty). -/
def qMin : List ℚ → Option ℚ
  | [] => none
  | x :: xs => some (xs.foldl min x)

/-- The DONE payload written by `run_trigger_analysis`. -/
structure TriggerResult where
  outcome : String
  tp1_hit_ts : Option Int
  sl_hit_ts : Option Int
  tp1_price : Option ℚ
  sl_price : Option ℚ
  mfe_pct : Option ℚ
  mae_pct : Option ℚ
  max_price : Option ℚ
  min_price : Option ℚ
  bu_hit_after_tp1 : Option Int
  post_tp1_max_pct : Option ℚ
  post_tp1_max_price : Option ℚ
  deriving Repr, DecidableEq

/-- The outcome decision of `run_trigger_analysis`
(the if/elif/else chain over the two recorded hit timestamps). -/
def outcomeOf : Option Int → Option Int → String
  | some _, none => "TP1_FIRST"
  | some t, some s => if t < s then "TP1_FIRST" else if s < t then "SL_FIRST" else "NEITHER"
  | none, some _ => "SL_FIRST"
  | none, none => "NEITHER"

/-- The post-TP1 block of `run_trigger_analysis`: over the points with
ts ≥ tp1_hit_ts it computes (bu_hit_after_tp1, post_tp1_max_pct,
post_tp1_max_price); outside the TP1_FIRST case all three stay null. -/
def postOf (entry : ℚ) (pcts : List (Int × ℚ × ℚ)) (outcome : String)
    (tp1_hit_ts : Option Int) (tp1_price : Option ℚ) : Option Int × Option ℚ × Option ℚ :=
  match tp1_hit_ts with
  | some t0 =>
    if outcome = "TP1_FIRST" then
      match pcts.filter (fun q => decide (q.1 ≥ t0)) with
      | [] =>
        (some (0 : Int),
         match tp1_price with
         | some tp => if tp ≠ 0 then some (pctOf entry tp) else none
         | none => none,
         tp1_price)
      | a :: rest =>
        (some (if (a :: rest).any (fun q => decide (q.2.1 ≤ entry)) then (1 : Int) else 0),
         qMax ((a :: rest).map (·.2.2)),
         qMax ((a :: rest).map (·.2.1)))
    else (none, none, none)
  | none => (none, none, none)

/-- The outcome/MFE/MAE/post-TP1 computation of `run_trigger_analysis` on the
sorted positive-price point list. -/
def triggerCompute (entry : ℚ) (points : List (Int × ℚ)) : TriggerResult :=
  let pcts : List (Int × ℚ × ℚ) := points.map fun q => (q.1, q.2, pctOf entry q.2)
  let hits := walkAux entry none none points
  let tp1_hit_ts := hits.1.map (·.1)
  let tp1_price := hits.1.map (·.2)
  let sl_hit_ts := hits.2.map (·.1)
  let sl_price := hits.2.map (·.2)
  let outcome := outcomeOf tp1_hit_ts sl_hit_ts
  let post := postOf entry pcts outcome tp1_hit_ts tp1_price
  { outcome := outcome, tp1_hit_ts := tp1_hit_ts, sl_hit_ts := sl_hit_ts,
    tp1_price := tp1_price, sl_price := sl_price,
    mfe_pct := qMax (pcts.map (·.2.2)), mae_pct := qMin (pcts.map (·.2.2)),
    max_price := qMax (pcts.map (·.2.1)), min_price := qMin (pcts.map (·.2.1)),
    bu_hit_after_tp1 := post.1, post_tp1_max_pct := post.2.1, post_tp1_max_price := post.2.2 }

/-- Insert a point into a ts-ascending list after equal timestamps
(the stable `points.sort` of the analyzer). -/
def insertPtByTs (x : Int × ℚ) : List (Int × ℚ) → List (Int × ℚ)
  | [] => [x]
  | y :: ys => if x.1 < y.1 then x :: y :: ys else y :: insertPtByTs x ys

/-- Stable sort of points by ascending timestamp. -/
def sortPtsByTs (l : List (Int × ℚ)) : List (Int × ℚ) :=
  l.foldl (fun acc x => insertPtByTs x acc) []

/-- The point list `run_trigger_analysis` evaluates for one signal: snapshots
of the pair in the window [signal_ts, signal_ts + 86400 s] (in the unit of
snapshot_ts), restricted to non-null positive prices, sorted by timestamp. -/
def trigger_window_points (db : Db) (pair : String) (signal_ts : Int) : List (Int × ℚ) :=
  let snapMs := detect_snapshot_ts_unit db
  let since_ts := normalize_since_ts signal_ts snapMs
  let until_ts :=
    if snapMs then signal_ts + TRIGGER_EVAL_MAX_AGE_SEC * 1000
    else (if signal_ts > 10 ^ 12 then signal_ts.fdiv 1000 else signal_ts) + TRIGGER_EVAL_MAX_AGE_SEC
  sortPtsByTs ((iterate_snapshots db pair since_ts until_ts).filterMap fun s =>
    match s.price_usd with
    | some p => if 0 < p then some (s.snapshot_ts, p) else none
    | none => none)

/-- What `run_trigger_analysis` writes for one PENDING row. -/
inductive TriggerUpdate where
  | noDataInvalidEntry
  | noDataInsufficient
  | done (r : TriggerResult)
  deriving Repr, DecidableEq

/-- Embedding of the per-row step of `run_trigger_analysis`. -/
def run_trigger_analysis_step (db : Db) (pair : String) (signal_ts : Int) (entry_price : ℚ) : TriggerUpdate :=
  if entry_price ≤ 0 then .noDataInvalidEntry
  else
    let points := trigger_window_points db pair signal_ts
    if points.length < TRIGGER_EVAL_MIN_SNAPSHOTS then .noDataInsufficient
    else .done (triggerCompute entry_price points)

/-! ## strategy/post_analyzer.py -/

/-- What `run_post_analysis` writes for one due PENDING row. -/
inductive EvalUpdate where
  | noData
  | done (price_end max_price min_price return_end_pct max_return_pct min_return_pct : ℚ)
  deriving Repr, DecidableEq

/-- The positive prices `run_post_analysis` reads in one window
(ascending by snapshot_ts). -/
def window_prices (db : Db) (pair : String) (since_ts until_ts : Int) : List ℚ :=
  (iterate_snapshots db pair since_ts until_ts).filterMap fun s =>
    match s.price_usd with
    | some p => if 0 < p then some p else none
    | none => none

/-- Embedding of the per-row step of `run_post_analysis` for a due PENDING
evaluation (now ≥ signal_ts + horizon). -/
def run_post_analysis_step (db : Db) (pair : String) (signal_ts : Int) (entry_price : ℚ) (horizon_sec : Int) : EvalUpdate :=
  let ts_is_ms := signal_ts > 10 ^ 12
  let horizon_unit := if ts_is_ms then horizon_sec * 1000 else horizon_sec
  let until_raw := signal_ts + horizon_unit
  let snapMs := detect_snapshot_ts_unit db
  let since_ts := normalize_since_ts signal_ts snapMs
  let until_ts := normalize_since_ts until_raw snapMs
  match window_prices db pair since_ts until_ts with
  | [] => .noData
  | p0 :: rest =>
    let price_end := rest.getLastD p0
    let max_price := rest.foldl max p0
    let min_price := rest.foldl min p0
    if entry_price ≤ 0 then .noData
    else
      .done price_end max_price min_price
        (pctOf entry_price price_end) (pctOf entry_price max_price) (pctOf entry_price min_price)

/-! ## Concrete stores used by counterexamples and witnesses -/

/-- Two snapshots of pair P at timestamps 100 and 200 (seconds unit). -/
def exampleDbWindow : Db :=
  { tokens := [], pairs := [],
    snapshots := [⟨"P", some 1, some 10, some 3, some 4, 100⟩,
                  ⟨"P", some 2, some 20, some 5, some 6, 200⟩] }

/-- Pair P with pairs-table price 7; snapshot price 5 at ts 1, then price 0 at ts 2. -/
def exampleDbLatest : Db :=
  { tokens := [],
    pairs := [⟨"P", "B", "Q", some 7, some 1⟩],
    snapshots := [⟨"P", some 5, none, none, none, 1⟩,
                  ⟨"P", some 0, none, none, none, 2⟩] }

/-- One pair P of unknown age with one snapshot (for the prune frame claim). -/
def exampleDbUnknownAge : Db :=
  { tokens := [⟨"B"⟩],
    pairs := [⟨"P", "B", "Q", some 7, none⟩],
    snapshots := [⟨"P", some 1, none, none, none, 5⟩] }

/-- A millisecond-unit store: one positive-price snapshot of pair P at ts 2·10^12. -/
def exampleDbMs : Db :=
  { tokens := [], pairs := [],
    snapshots := [⟨"P", some 5, none, none, none, 2000000000000⟩] }

/-- A millisecond-unit store with two snapshots of pair P: price 100 at the
signal timestamp and price 150 one second later (a +50 % move). -/
def exampleDbTrigger : Db :=
  { tokens := [], pairs := [],
    snapshots := [⟨"P", some 100, none, none, none, 2000000000000⟩,
                  ⟨"P", some 150, none, none, none, 2000000001000⟩] }

end Screener

/-! ## Claim theorems -/

namespace Screener

/-- C1: the spec table says drop_from_ath > 60 classifies as REJECT, and the
hard filters (liquidity ≥ 10000, txns_h24 ≥ 5) are exactly the WL1 minima.
Evaluating the embedded classifier at a failing input (drop 70, liq 10000,
txns 5, buys 0): the code falls into the WL1 else-branch (whose own comment
claims it covers only 25 ≤ drop < 35) and records WATCHLIST_L1, not REJECT. -/
theorem C1_drop_above_60_is_watchlist_l1 :
    classify_by_drop 70 10000 5 0 = "WATCHLIST_L1" ∧
    classify_by_drop 70 10000 5 0 ≠ "REJECT" := by
  constructor <;> decide

/-- C2: the claim says a non-429 4xx response raises without any further
attempt.  In the code `resp.raise_for_status()` raises `HTTPStatusError` for
every 4xx, and the `except` clause catches `HTTPStatusError`, so a 404 is
retried exactly like a 429: with a 404 on attempt 1 and a 200 on attempt 2
(max_retries = 4), the request succeeds after 2 attempts instead of raising
after 1; with 404 on every attempt it performs all 4 attempts and only then
raises. -/
theorem C2_4xx_is_retried :
    requestModel net404then200 4 = .success 2 200 ∧
    requestModel (fun _ => .status 404) 4 = .failure 4 (.statusError 404) := by
  constructor <;> rfl

/-! ### Helper lemmas on folds and filters -/

theorem init_le_foldl_max {α : Type} [LinearOrder α] (l : List α) (init : α) :
    init ≤ l.foldl max init := by
  induction l generalizing init with
  | nil => exact le_refl _
  | cons x xs ih => exact le_trans (le_max_left _ _) (ih (max init x))

theorem mem_le_foldl_max {α : Type} [LinearOrder α] {a : α} :
    ∀ (l : List α) (init : α), a ∈ l → a ≤ l.foldl max init := by
  intro l
  induction l with
  | nil => intro init ha; cases ha
  | cons x xs ih =>
    intro init ha
    rcases List.mem_cons.mp ha with h | h
    · subst h
      exact le_trans (le_max_right _ _) (init_le_foldl_max xs _)
    · exact ih _ h

theorem foldl_max_mem {α : Type} [LinearOrder α] :
    ∀ (l : List α) (init : α), l.foldl max init = init ∨ l.foldl max init ∈ l := by
  intro l
  induction l with
  | nil => intro init; left; rfl
  | cons x xs ih =>
    intro init
    rw [List.foldl_cons]
    rcases ih (max init x) with h | h
    · rcases max_choice init x with hm | hm
      · left; rw [h, hm]
      · right; rw [h, hm]; exact List.mem_cons_self _ _
    · right; exact List.mem_cons_of_mem _ h

theorem foldl_min_le_init {α : Type} [LinearOrder α] (l : List α) (init : α) :
    l.foldl min init ≤ init := by
  induction l generalizing init with
  | nil => exact le_refl _
  | cons x xs ih => exact le_trans (ih (min init x)) (min_le_left _ _)

theorem foldl_min_le_mem {α : Type} [LinearOrder α] {a : α} :
    ∀ (l : List α) (init : α), a ∈ l → l.foldl min init ≤ a := by
  intro l
  induction l with
  | nil => intro init ha; cases ha
  | cons x xs ih =>
    intro init ha
    rcases List.mem_cons.mp ha with h | h
    · subst h
      exact le_trans (foldl_min_le_init xs _) (min_le_right _ _)
    · exact ih _ h

theorem foldl_min_mem {α : Type} [LinearOrder α] :
    ∀ (l : List α) (init : α), l.foldl min init = init ∨ l.foldl min init ∈ l := by
  intro l
  induction l with
  | nil => intro init; left; rfl
  | cons x xs ih =>
    intro init
    rw [List.foldl_cons]
    rcases ih (min init x) with h | h
    · rcases min_choice init x with hm | hm
      · left; rw [h, hm]
      · right; rw [h, hm]; exact List.mem_cons_self _ _
    · right; exact List.mem_cons_of_mem _ h

theorem qMax_spec {l : List ℚ} {m : ℚ} (h : qMax l = some m) :
    m ∈ l ∧ ∀ a ∈ l, a ≤ m := by
  match l, h with
  | x :: xs, h =>
    have hm : m = xs.foldl max x := by
      simpa [qMax] using h.symm
    subst hm
    constructor
    · rcases foldl_max_mem xs x with h0 | h0
      · rw [h0]; exact List.mem_cons_self _ _
      · exact List.mem_cons_of_mem _ h0
    · intro a ha
      rcases List.mem_cons.mp ha with h1 | h1
      · subst h1; exact init_le_foldl_max xs _
      · exact mem_le_foldl_max xs _ h1

theorem qMin_spec {l : List ℚ} {m : ℚ} (h : qMin l = some m) :
    m ∈ l ∧ ∀ a ∈ l, m ≤ a := by
  match l, h with
  | x :: xs, h =>
    have hm : m = xs.foldl min x := by
      simpa [qMin] using h.symm
    subst hm
    constructor
    · rcases foldl_min_mem xs x with h0 | h0
      · rw [h0]; exact List.mem_cons_self _ _
      · exact List.mem_cons_of_mem _ h0
    · intro a ha
      rcases List.mem_cons.mp ha with h1 | h1
      · subst h1; exact foldl_min_le_init xs _
      · exact foldl_min_le_mem xs _ h1

theorem getLast?_cons_eq_getLastD {α : Type} (p0 : α) (rest : List α) :
    (p0 :: rest).getLast? = some (rest.getLastD p0) := by
  induction rest generalizing p0 with
  | nil => rfl
  | cons r rs ih => rw [List.getLast?_cons_cons, List.getLastD_cons]; exact ih r

theorem maxTsSnap_spec {l : List Snap} {s : Snap} (h : maxTsSnap l = some s) :
    s ∈ l ∧ ∀ t ∈ l, t.snapshot_ts ≤ s.snapshot_ts := by
  match l, h with
  | x :: xs, h =>
    have hs : s = xs.foldl (fun best y => if y.snapshot_ts > best.snapshot_ts then y else best) x := by
      simpa [maxTsSnap] using h.symm
    have hmem : ∀ (l2 : List Snap) (b : Snap),
        l2.foldl (fun best y => if y.snapshot_ts > best.snapshot_ts then y else best) b = b ∨
        l2.foldl (fun best y => if y.snapshot_ts > best.snapshot_ts then y else best) b ∈ l2 := by
      intro l2
      induction l2 with
      | nil => intro b; left; rfl
      | cons z zs ih =>
        intro b
        rw [List.foldl_cons]
        rcases ih (if z.snapshot_ts > b.snapshot_ts then z else b) with h0 | h0
        · by_cases hz : z.snapshot_ts > b.snapshot_ts
          · right; rw [h0, if_pos hz]; exact List.mem_cons_self _ _
          · left; rw [h0, if_neg hz]
        · right; exact List.mem_cons_of_mem _ h0
    have hle : ∀ (l2 : List Snap) (b : Snap),
        b.snapshot_ts ≤ (l2.foldl (fun best y => if y.snapshot_ts > best.snapshot_ts then y else best) b).snapshot_ts ∧
        ∀ t ∈ l2, t.snapshot_ts ≤ (l2.foldl (fun best y => if y.snapshot_ts > best.snapshot_ts then y else best) b).snapshot_ts := by
      intro l2
      induction l2 with
      | nil => intro b; exact ⟨le_refl _, by intro t ht; cases ht⟩
      | cons z zs ih =>
        intro b
        rw [List.foldl_cons]
        constructor
        · refine le_trans ?_ (ih _).1
          by_cases hz : z.snapshot_ts > b.snapshot_ts
          · rw [if_pos hz]; exact le_of_lt hz
          · rw [if_neg hz]
        · intro t ht
          rcases List.mem_cons.mp ht with h1 | h1
          · subst h1
            refine le_trans ?_ (ih _).1
            by_cases hz : t.snapshot_ts > b.snapshot_ts
            · rw [if_pos hz]
            · rw [if_neg hz]; exact le_of_not_lt hz
          · exact (ih _).2 t h1
    subst hs
    constructor
    · rcases hmem xs x with h0 | h0
      · rw [h0]; exact List.mem_cons_self _ _
      · exact List.mem_cons_of_mem _ h0
    · intro t ht
      rcases List.mem_cons.mp ht with h1 | h1
      · subst h1; exact (hle xs t).1
      · exact (hle xs x).2 t h1

theorem filter_filter_of_imp {α : Type} (l : List α) (f g : α → Bool)
    (h : ∀ x ∈ l, g x = true → f x = true) :
    (l.filter f).filter g = l.filter g := by
  induction l with
  | nil => rfl
  | cons x xs ih =>
    have hx := h x (List.mem_cons_self _ _)
    have ih2 := ih fun y hy => h y (List.mem_cons_of_mem _ hy)
    by_cases hg : g x = true
    · have hf : f x = true := hx hg
      simp [List.filter_cons, hf, hg, ih2]
    · by_cases hf : f x = true
      · simp [List.filter_cons, hf, hg, ih2]
      · simp [List.filter_cons, hf, hg, ih2]

theorem eq_of_mem_pairwise_addr :
    ∀ {l : List PairRow}, l.Pairwise (fun a b => a.pair_address ≠ b.pair_address) →
    ∀ {p q : PairRow}, p ∈ l → q ∈ l → q.pair_address = p.pair_address → q = p := by
  intro l hl
  induction hl with
  | nil => intro p q hp _ _; cases hp
  | cons hhead _ ih =>
    intro p q hp hq he
    rcases List.mem_cons.mp hp with h1 | h1 <;> rcases List.mem_cons.mp hq with h2 | h2
    · rw [h1, h2]
    · subst h1; exact absurd he.symm (hhead q h2)
    · subst h2; exact absurd he (hhead p h1)
    · exact ih h1 h2 he

/-- The self-check "old pair" predicate implies the prune one
(created > 0 gives created ≠ 0). -/
theorem pairIsOldCheck_imp_prune (cutoff_ms : Int) (p : PairRow)
    (h : pairIsOldCheck cutoff_ms p = true) : pairIsOldPrune cutoff_ms p = true := by
  cases hcr : p.pair_created_at_ms with
  | none => rw [pairIsOldCheck, hcr] at h; cases h
  | some c =>
    rw [pairIsOldCheck, hcr] at h
    rw [pairIsOldPrune, hcr]
    simp only [decide_eq_true_eq] at h ⊢
    omega

/-- C5: after a non-dry `prune_by_pair_age(24)` with no interleaving writes
(both cutoffs computed from the same clock value), `self_check_invariants`
reports zero old pairs, zero snapshots of old pairs and zero orphan tokens. -/
theorem C5_prune_then_self_check_clean (db : Db) (now : ℚ) :
    self_check_invariants
      (prune_by_pair_age db (prune_cutoff_ms now DEFAULT_PRUNE_MAX_AGE_HOURS) false).2
      (self_check_cutoff_ms now) = (0, 0, 0) := by
  have hcut : self_check_cutoff_ms now = prune_cutoff_ms now DEFAULT_PRUNE_MAX_AGE_HOURS := rfl
  rw [hcut]
  set c := prune_cutoff_ms now DEFAULT_PRUNE_MAX_AGE_HOURS with hc
  have hprune : (prune_by_pair_age db c false).2 =
      { tokens := db.tokens.filter fun t =>
          tokenReferenced (db.pairs.filter fun p => !pairIsOldPrune c p) t,
        pairs := db.pairs.filter fun p => !pairIsOldPrune c p,
        snapshots := db.snapshots.filter fun s => !snapHasOldPairPrune db.pairs c s } := by
    simp [prune_by_pair_age]
  rw [hprune]
  unfold self_check_invariants
  simp only [Prod.mk.injEq]
  refine ⟨?_, ?_, ?_⟩
  · refine List.countP_eq_zero.mpr ?_
    intro p hp hcheck
    have hnot : (!pairIsOldPrune c p) = true := (List.mem_filter.mp hp).2
    rw [pairIsOldCheck_imp_prune c p hcheck] at hnot
    cases hnot
  · refine List.countP_eq_zero.mpr ?_
    intro s _ hcheck
    obtain ⟨q, hq, hcond⟩ := List.any_eq_true.mp hcheck
    rw [Bool.and_eq_true] at hcond
    have hqmem : (!pairIsOldPrune c q) = true := (List.mem_filter.mp hq).2
    have hqold : pairIsOldCheck c q = true := hcond.2
    rw [pairIsOldCheck_imp_prune c q hqold] at hqmem
    cases hqmem
  · refine List.countP_eq_zero.mpr ?_
    intro t ht hbad
    have href : tokenReferenced (db.pairs.filter fun p => !pairIsOldPrune c p) t = true :=
      (List.mem_filter.mp ht).2
    rw [href] at hbad
    cases hbad

/-- C6: a pair whose pair_created_at_ms is NULL or 0 is untouched by
`prune_by_pair_age` (any cutoff, dry-run or not), and so is every one of its
snapshot rows; pair addresses are unique (pair_address is the primary key). -/
theorem C6_prune_preserves_unknown_age
    (db : Db) (cutoff_ms : Int) (dry_run : Bool) (p : PairRow)
    (hmem : p ∈ db.pairs)
    (hage : p.pair_created_at_ms = none ∨ p.pair_created_at_ms = some 0)
    (huniq : db.pairs.Pairwise fun a b => a.pair_address ≠ b.pair_address) :
    p ∈ (prune_by_pair_age db cutoff_ms dry_run).2.pairs ∧
    (prune_by_pair_age db cutoff_ms dry_run).2.snapshots.filter
        (fun s => decide (s.pair_address = p.pair_address)) =
      db.snapshots.filter (fun s => decide (s.pair_address = p.pair_address)) := by
  have hnotold : pairIsOldPrune cutoff_ms p = false := by
    rcases hage with h | h <;> simp [pairIsOldPrune, h]
  cases dry_run with
  | true =>
    constructor
    · simpa [prune_by_pair_age] using hmem
    · simp [prune_by_pair_age]
  | false =>
    have hsnap : ∀ s ∈ db.snapshots, decide (s.pair_address = p.pair_address) = true →
        (!snapHasOldPairPrune db.pairs cutoff_ms s) = true := by
      intro s _ haddr
      have haddr2 : s.pair_address = p.pair_address := of_decide_eq_true haddr
      cases hb : snapHasOldPairPrune db.pairs cutoff_ms s with
      | false => rfl
      | true =>
        obtain ⟨q, hq, hcond⟩ := List.any_eq_true.mp hb
        rw [Bool.and_eq_true] at hcond
        obtain ⟨hqa, hqold⟩ := hcond
        have hqa2 : q.pair_address = p.pair_address := by
          rw [of_decide_eq_true hqa, haddr2]
        have : q = p := eq_of_mem_pairwise_addr huniq hmem hq hqa2
        rw [this, hnotold] at hqold
        cases hqold
    constructor
    · have : p ∈ db.pairs.filter fun q => !pairIsOldPrune cutoff_ms q :=
        List.mem_filter.mpr ⟨hmem, by rw [hnotold]; rfl⟩
      simpa [prune_by_pair_age] using this
    · have := filter_filter_of_imp db.snapshots
        (fun s => !snapHasOldPairPrune db.pairs cutoff_ms s)
        (fun s => decide (s.pair_address = p.pair_address)) hsnap
      simpa [prune_by_pair_age] using this

/-- C6 witness: the theorem applied to a store with one unknown-age pair. -/
theorem C6_prune_preserves_unknown_age_witness :
    (⟨"P", "B", "Q", some 7, none⟩ : PairRow) ∈
      (prune_by_pair_age exampleDbUnknownAge 0 false).2.pairs ∧
    (prune_by_pair_age exampleDbUnknownAge 0 false).2.snapshots.filter
        (fun s => decide (s.pair_address = (⟨"P", "B", "Q", some 7, none⟩ : PairRow).pair_address)) =
      exampleDbUnknownAge.snapshots.filter
        (fun s => decide (s.pair_address = (⟨"P", "B", "Q", some 7, none⟩ : PairRow).pair_address)) :=
  C6_prune_preserves_unknown_age exampleDbUnknownAge 0 false _
    (by decide) (Or.inl rfl) (by simp [exampleDbUnknownAge])

/-- C7 counterexample: in a store where the last snapshot of pair P has price
0 but an older snapshot has price 5 and the pairs table says 7, the code
returns 5 (it reads the last snapshot with a positive price), while the claim
("the price of the last snapshot if the pair has any snapshot") yields 0. -/
theorem C7_latest_price_counterexample :
    fetch_latest_price exampleDbLatest "P" = some 5 ∧
    fetch_latest_price_claim exampleDbLatest "P" = some 0 ∧
    fetch_latest_price exampleDbLatest "P" ≠ fetch_latest_price_claim exampleDbLatest "P" := by
  refine ⟨?_, ?_, ?_⟩ <;> decide

/-- C7 amended: `fetch_latest_price` returns the price of the latest snapshot
of the pair having a non-null positive price when such a snapshot exists
(and that price is positive); otherwise it falls back to the pairs-table
price_usd (null when the pair row is absent or its price is null). -/
theorem C7_latest_price_amended (db : Db) (pair : String) :
    (posSnapRows db pair = [] →
      fetch_latest_price db pair =
        (match db.pairs.find? fun p => decide (p.pair_address = pair) with
         | some p => p.price_usd
         | none => none)) ∧
    (posSnapRows db pair ≠ [] →
      ∃ s ∈ posSnapRows db pair,
        fetch_latest_price db pair = s.price_usd ∧
        (∀ t ∈ posSnapRows db pair, t.snapshot_ts ≤ s.snapshot_ts) ∧
        ∃ p0, s.price_usd = some p0 ∧ 0 < p0) := by
  constructor
  · intro hempty
    rw [fetch_latest_price, hempty]
    rfl
  · intro hne
    match hrows : posSnapRows db pair with
    | [] => exact absurd hrows hne
    | x :: xs =>
      have hmax : maxTsSnap (posSnapRows db pair) =
          some (xs.foldl (fun best y => if y.snapshot_ts > best.snapshot_ts then y else best) x) := by
        rw [hrows]; rfl
      obtain ⟨hsmem, hsmax⟩ := maxTsSnap_spec hmax
      rw [hrows] at hsmem hsmax
      refine ⟨xs.foldl (fun best y => if y.snapshot_ts > best.snapshot_ts then y else best) x,
        hsmem, ?_, hsmax, ?_⟩
      · rw [fetch_latest_price, hmax]
      · have hpos : snapHasPosPrice
            (xs.foldl (fun best y => if y.snapshot_ts > best.snapshot_ts then y else best) x) = true := by
        -- the row comes from the positive-price filter
          have hmem2 : xs.foldl (fun best y => if y.snapshot_ts > best.snapshot_ts then y else best) x
              ∈ posSnapRows db pair := by rw [hrows]; exact hsmem
          exact (List.mem_filter.mp hmem2).2
        cases hp : (xs.foldl (fun best y => if y.snapshot_ts > best.snapshot_ts then y else best) x).price_usd with
        | none => rw [snapHasPosPrice, hp] at hpos; cases hpos
        | some p0 =>
          rw [snapHasPosPrice, hp] at hpos
          exact ⟨p0, rfl, of_decide_eq_true hpos⟩

/-- C7 amended witness: the nonempty-branch of the theorem at the
counterexample store (its single positive snapshot has price 5 at ts 1). -/
theorem C7_latest_price_amended_witness :
    posSnapRows exampleDbLatest "P" ≠ [] ∧
    ∃ s ∈ posSnapRows exampleDbLatest "P",
      fetch_latest_price exampleDbLatest "P" = s.price_usd ∧
      (∀ t ∈ posSnapRows exampleDbLatest "P", t.snapshot_ts ≤ s.snapshot_ts) ∧
      ∃ p0, s.price_usd = some p0 ∧ 0 < p0 :=
  ⟨by decide, (C7_latest_price_amended exampleDbLatest "P").2 (by decide)⟩

/-- Sum of a pointwise sum of integers splits. -/
theorem sum_map_add_int {α : Type} (l : List α) (f g : α → Int) :
    (l.map fun x => f x + g x).sum = (l.map f).sum + (l.map g).sum := by
  induction l with
  | nil => rfl
  | cons x xs ih => simp [ih]; ring

/-- C9 counterexample: with snapshots exactly at both endpoints of the window
(center 150, width 100, so bounds 100 and 200), the code counts 2 (a closed
window), while either half-open reading of the claim counts 1. -/
theorem C9_activity_window_counterexample :
    (fetch_activity_window exampleDbWindow "P" 150 100).snapshots_count = 2 ∧
    activityCountHalfOpenLeft exampleDbWindow "P" 100 200 = 1 ∧
    activityCountHalfOpenRight exampleDbWindow "P" 100 200 = 1 := by
  have hdet : detect_snapshot_ts_unit exampleDbWindow = false := by decide
  have hhalf : pyTrunc ((100 : ℚ) * (if detect_snapshot_ts_unit exampleDbWindow then 1000 else 1) / 2) = 50 := by
    rw [hdet]
    norm_num [pyTrunc]
  refine ⟨?_, by decide, by decide⟩
  rw [fetch_activity_window]
  simp only [hhalf]
  decide

/-- C9 amended: `fetch_activity_window` counts snapshots (and sums
buys+sells and volume) over the CLOSED window
[center − ⌊w·unit/2⌋, center + ⌊w·unit/2⌋]: both endpoints are included,
and the tx sum is the sum of the buys and sells sums. -/
theorem C9_activity_window_amended (db : Db) (pair : String) (center_ts : Int) (window_sec : ℚ) :
    (fetch_activity_window db pair center_ts window_sec).snapshots_count =
      db.snapshots.countP (fun s => decide (s.pair_address = pair ∧
        center_ts - pyTrunc (window_sec * (if detect_snapshot_ts_unit db then 1000 else 1) / 2) ≤ s.snapshot_ts ∧
        s.snapshot_ts ≤ center_ts + pyTrunc (window_sec * (if detect_snapshot_ts_unit db then 1000 else 1) / 2))) ∧
    (fetch_activity_window db pair center_ts window_sec).txns_sum =
      (fetch_activity_window db pair center_ts window_sec).buys_sum +
        (fetch_activity_window db pair center_ts window_sec).sells_sum := by
  constructor
  · rw [fetch_activity_window, List.countP_eq_length_filter]
  · rw [fetch_activity_window]
    exact sum_map_add_int _ _ _

/-- C8 counterexample: a PENDING evaluation with entry_price = 0 and one
positive-price snapshot inside the window is marked NO_DATA by the code,
while the claim says any window with at least one positive price is marked
DONE. -/
theorem C8_horizon_zero_entry_counterexample :
    run_post_analysis_step exampleDbMs "P" 2000000000000 0 3600 = .noData ∧
    window_prices exampleDbMs "P" 2000000000000 (2000000000000 + 3600 * 1000) ≠ [] := by
  constructor <;> decide

/-- C8 amended: for a due PENDING evaluation in a millisecond-unit store with
a millisecond signal_ts, the step reads the positive prices in the inclusive
window [signal_ts, signal_ts + horizon·1000 ms]; an empty window or a
non-positive entry price yields NO_DATA, and otherwise the row becomes DONE
with price_end the last price, max/min the extrema, and each return equal to
(p − entry)/entry·100. -/
theorem C8_horizon_step_amended
    (db : Db) (pair : String) (signal_ts : Int) (entry_price : ℚ) (horizon_sec : Int)
    (hms : signal_ts > 10 ^ 12) (hdet : detect_snapshot_ts_unit db = true) :
    (window_prices db pair signal_ts (signal_ts + horizon_sec * 1000) = [] →
      run_post_analysis_step db pair signal_ts entry_price horizon_sec = .noData) ∧
    (entry_price ≤ 0 →
      run_post_analysis_step db pair signal_ts entry_price horizon_sec = .noData) ∧
    (0 < entry_price →
      ∀ p0 rest, window_prices db pair signal_ts (signal_ts + horizon_sec * 1000) = p0 :: rest →
        ∃ pe mx mn,
          run_post_analysis_step db pair signal_ts entry_price horizon_sec =
            .done pe mx mn (pctOf entry_price pe) (pctOf entry_price mx) (pctOf entry_price mn) ∧
          (p0 :: rest).getLast? = some pe ∧
          mx ∈ p0 :: rest ∧ (∀ q ∈ p0 :: rest, q ≤ mx) ∧
          mn ∈ p0 :: rest ∧ (∀ q ∈ p0 :: rest, mn ≤ q)) := by
  have hnorm : ∀ t : Int, normalize_since_ts t (detect_snapshot_ts_unit db) = t := by
    intro t; rw [hdet]; rfl
  refine ⟨?_, ?_, ?_⟩
  · intro hw
    simp only [run_post_analysis_step, if_pos hms, hnorm]
    rw [hw]
  · intro hle
    simp only [run_post_analysis_step, if_pos hms, hnorm]
    cases hw : window_prices db pair signal_ts (signal_ts + horizon_sec * 1000) with
    | nil => rfl
    | cons p0 rest => simp only [if_pos hle]
  · intro hpos p0 rest hw
    refine ⟨rest.getLastD p0, rest.foldl max p0, rest.foldl min p0, ?_, ?_, ?_, ?_, ?_, ?_⟩
    · simp only [run_post_analysis_step, if_pos hms, hnorm]
      rw [hw]
      simp only [if_neg (not_le.mpr hpos)]
    · exact getLast?_cons_eq_getLastD p0 rest
    · rcases foldl_max_mem rest p0 with h | h
      · rw [h]; exact List.mem_cons_self _ _
      · exact List.mem_cons_of_mem _ h
    · intro q hq
      rcases List.mem_cons.mp hq with h | h
      · subst h; exact init_le_foldl_max rest q
      · exact mem_le_foldl_max rest p0 h
    · rcases foldl_min_mem rest p0 with h | h
      · rw [h]; exact List.mem_cons_self _ _
      · exact List.mem_cons_of_mem _ h
    · intro q hq
      rcases List.mem_cons.mp hq with h | h
      · subst h; exact foldl_min_le_init rest q
      · exact foldl_min_le_mem rest p0 h

/-- C8 witness: the amended theorem at a concrete millisecond store with a
single snapshot of price 5 and entry price 5 (the one-point window). -/
theorem C8_horizon_step_amended_witness :
    ∃ pe mx mn,
      run_post_analysis_step exampleDbMs "P" 2000000000000 5 3600 =
        .done pe mx mn (pctOf 5 pe) (pctOf 5 mx) (pctOf 5 mn) ∧
      ((5 : ℚ) :: []).getLast? = some pe ∧
      mx ∈ (5 : ℚ) :: [] ∧ (∀ q ∈ (5 : ℚ) :: [], q ≤ mx) ∧
      mn ∈ (5 : ℚ) :: [] ∧ (∀ q ∈ (5 : ℚ) :: [], mn ≤ q) :=
  (C8_horizon_step_amended exampleDbMs "P" 2000000000000 5 3600
    (by decide) (by decide)).2.2 (by norm_num) 5 [] (by decide)

/-! ### Walk lemmas for the trigger analyzer -/

theorem walkAux_fst_some (entry : ℚ) (a : Int × ℚ) :
    ∀ (pts : List (Int × ℚ)) (sl : Option (Int × ℚ)), (walkAux entry (some a) sl pts).1 = some a := by
  intro pts
  induction pts with
  | nil => intro sl; rfl
  | cons q rest ih =>
    intro sl
    obtain ⟨ts, p⟩ := q
    show (walkAux entry
        (if some a = none ∧ pctOf entry p ≥ TP1_PCT then some (ts, p) else some a)
        (if sl = none ∧ pctOf entry p ≤ SL_PCT then some (ts, p) else sl) rest).1 = some a
    rw [show (if some a = none ∧ pctOf entry p ≥ TP1_PCT then some (ts, p) else some a) = some a
      from if_neg (by simp)]
    exact ih _

theorem walkAux_snd_some (entry : ℚ) (b : Int × ℚ) :
    ∀ (pts : List (Int × ℚ)) (tp1 : Option (Int × ℚ)), (walkAux entry tp1 (some b) pts).2 = some b := by
  intro pts
  induction pts with
  | nil => intro tp1; rfl
  | cons q rest ih =>
    intro tp1
    obtain ⟨ts, p⟩ := q
    show (walkAux entry
        (if tp1 = none ∧ pctOf entry p ≥ TP1_PCT then some (ts, p) else tp1)
        (if some b = none ∧ pctOf entry p ≤ SL_PCT then some (ts, p) else some b) rest).2 = some b
    rw [show (if some b = none ∧ pctOf entry p ≤ SL_PCT then some (ts, p) else some b) = some b
      from if_neg (by simp)]
    exact ih _

theorem walkAux_fst_none (entry : ℚ) :
    ∀ (pts : List (Int × ℚ)) (sl : Option (Int × ℚ)),
      (walkAux entry none sl pts).1 = first_hit_at_or_above entry TP1_PCT pts := by
  intro pts
  induction pts with
  | nil => intro sl; rfl
  | cons q rest ih =>
    intro sl
    obtain ⟨ts, p⟩ := q
    show (walkAux entry
        (if (none : Option (Int × ℚ)) = none ∧ pctOf entry p ≥ TP1_PCT then some (ts, p) else none)
        (if sl = none ∧ pctOf entry p ≤ SL_PCT then some (ts, p) else sl) rest).1
      = first_hit_at_or_above entry TP1_PCT ((ts, p) :: rest)
    by_cases h : pctOf entry p ≥ TP1_PCT
    · rw [show (if (none : Option (Int × ℚ)) = none ∧ pctOf entry p ≥ TP1_PCT
          then some (ts, p) else none) = some (ts, p) from if_pos ⟨rfl, h⟩]
      rw [walkAux_fst_some]
      simp [first_hit_at_or_above, List.find?_cons, h]
    · rw [show (if (none : Option (Int × ℚ)) = none ∧ pctOf entry p ≥ TP1_PCT
          then some (ts, p) else none) = none from if_neg (by simp [h])]
      rw [ih]
      simp [first_hit_at_or_above, List.find?_cons, h]

theorem walkAux_snd_none (entry : ℚ) :
    ∀ (pts : List (Int × ℚ)) (tp1 : Option (Int × ℚ)),
      (walkAux entry tp1 none pts).2 = first_hit_at_or_below entry SL_PCT pts := by
  intro pts
  induction pts with
  | nil => intro tp1; rfl
  | cons q rest ih =>
    intro tp1
    obtain ⟨ts, p⟩ := q
    show (walkAux entry
        (if tp1 = none ∧ pctOf entry p ≥ TP1_PCT then some (ts, p) else tp1)
        (if (none : Option (Int × ℚ)) = none ∧ pctOf entry p ≤ SL_PCT then some (ts, p) else none) rest).2
      = first_hit_at_or_below entry SL_PCT ((ts, p) :: rest)
    by_cases h : pctOf entry p ≤ SL_PCT
    · rw [show (if (none : Option (Int × ℚ)) = none ∧ pctOf entry p ≤ SL_PCT
          then some (ts, p) else none) = some (ts, p) from if_pos ⟨rfl, h⟩]
      rw [walkAux_snd_some]
      simp [first_hit_at_or_below, List.find?_cons, h]
    · rw [show (if (none : Option (Int × ℚ)) = none ∧ pctOf entry p ≤ SL_PCT
          then some (ts, p) else none) = none from if_neg (by simp [h])]
      rw [ih]
      simp [first_hit_at_or_below, List.find?_cons, h]

/-! ### Projections of `triggerCompute` -/

theorem triggerCompute_tp1_hit (entry : ℚ) (pts : List (Int × ℚ)) :
    (triggerCompute entry pts).tp1_hit_ts = (first_hit_at_or_above entry TP1_PCT pts).map (·.1) := by
  show (walkAux entry none none pts).1.map (·.1) = _
  rw [walkAux_fst_none]

theorem triggerCompute_sl_hit (entry : ℚ) (pts : List (Int × ℚ)) :
    (triggerCompute entry pts).sl_hit_ts = (first_hit_at_or_below entry SL_PCT pts).map (·.1) := by
  show (walkAux entry none none pts).2.map (·.1) = _
  rw [walkAux_snd_none]

theorem triggerCompute_outcome (entry : ℚ) (pts : List (Int × ℚ)) :
    (triggerCompute entry pts).outcome =
      outcomeOf ((first_hit_at_or_above entry TP1_PCT pts).map (·.1))
        ((first_hit_at_or_below entry SL_PCT pts).map (·.1)) := by
  show outcomeOf ((walkAux entry none none pts).1.map (·.1))
      ((walkAux entry none none pts).2.map (·.1)) = _
  rw [walkAux_fst_none, walkAux_snd_none]

theorem triggerCompute_bu (entry : ℚ) (pts : List (Int × ℚ)) :
    (triggerCompute entry pts).bu_hit_after_tp1 =
      (postOf entry (pts.map fun q => (q.1, q.2, pctOf entry q.2))
        (outcomeOf ((first_hit_at_or_above entry TP1_PCT pts).map (·.1))
          ((first_hit_at_or_below entry SL_PCT pts).map (·.1)))
        ((first_hit_at_or_above entry TP1_PCT pts).map (·.1))
        ((first_hit_at_or_above entry TP1_PCT pts).map (·.2))).1 := by
  show (postOf entry (pts.map fun q => (q.1, q.2, pctOf entry q.2))
      (outcomeOf ((walkAux entry none none pts).1.map (·.1))
        ((walkAux entry none none pts).2.map (·.1)))
      ((walkAux entry none none pts).1.map (·.1))
      ((walkAux entry none none pts).1.map (·.2))).1 = _
  rw [walkAux_fst_none, walkAux_snd_none]

theorem triggerCompute_post_max (entry : ℚ) (pts : List (Int × ℚ)) :
    (triggerCompute entry pts).post_tp1_max_pct =
      (postOf entry (pts.map fun q => (q.1, q.2, pctOf entry q.2))
        (outcomeOf ((first_hit_at_or_above entry TP1_PCT pts).map (·.1))
          ((first_hit_at_or_below entry SL_PCT pts).map (·.1)))
        ((first_hit_at_or_above entry TP1_PCT pts).map (·.1))
        ((first_hit_at_or_above entry TP1_PCT pts).map (·.2))).2.1 := by
  show (postOf entry (pts.map fun q => (q.1, q.2, pctOf entry q.2))
      (outcomeOf ((walkAux entry none none pts).1.map (·.1))
        ((walkAux entry none none pts).2.map (·.1)))
      ((walkAux entry none none pts).1.map (·.1))
      ((walkAux entry none none pts).1.map (·.2))).2.1 = _
  rw [walkAux_fst_none, walkAux_snd_none]

/-- The outcome decision agrees with the claim: TP1_FIRST iff a TP1 hit
exists and precedes any SL hit, SL_FIRST symmetrically, NEITHER otherwise. -/
theorem outcomeOf_spec (T S : Option Int) :
    (outcomeOf T S = "TP1_FIRST" ↔ T ≠ none ∧
      (S = none ∨ ∃ t u, T = some t ∧ S = some u ∧ t < u)) ∧
    (outcomeOf T S = "SL_FIRST" ↔ S ≠ none ∧
      (T = none ∨ ∃ t u, T = some t ∧ S = some u ∧ u < t)) ∧
    (outcomeOf T S = "NEITHER" ∨ outcomeOf T S = "TP1_FIRST" ∨ outcomeOf T S = "SL_FIRST") := by
  cases T with
  | none =>
    cases S with
    | none => refine ⟨?_, ?_, ?_⟩ <;> simp [outcomeOf]
    | some s => refine ⟨?_, ?_, ?_⟩ <;> simp [outcomeOf]
  | some t =>
    cases S with
    | none => refine ⟨?_, ?_, ?_⟩ <;> simp [outcomeOf]
    | some s =>
      rcases lt_trichotomy t s with h | h | h
      · refine ⟨?_, ?_, ?_⟩ <;> simp [outcomeOf, h] <;> omega
      · subst h
        refine ⟨?_, ?_, ?_⟩ <;> simp [outcomeOf] <;> omega
      · refine ⟨?_, ?_, ?_⟩ <;> simp [outcomeOf, h, not_lt_of_gt h] <;> omega

/-- C3: for a PENDING trigger evaluation with positive entry price and at
least 2 positive-price points in the 24 h window, the step stores DONE with
tp1/sl the first points at or above +40 % / at or below −50 %, outcome
TP1_FIRST iff tp1 exists and (sl absent or tp1 earlier), SL_FIRST iff sl
exists and (tp1 absent or sl earlier), NEITHER otherwise; in particular
outcome TP1_FIRST forces tp1_hit_ts < sl_hit_ts or a null sl_hit_ts. -/
theorem C3_trigger_outcome_characterization
    (db : Db) (pair : String) (signal_ts : Int) (entry_price : ℚ)
    (hentry : 0 < entry_price)
    (hpts : 2 ≤ (trigger_window_points db pair signal_ts).length) :
    ∃ r, run_trigger_analysis_step db pair signal_ts entry_price = .done r ∧
      r.tp1_hit_ts = (first_hit_at_or_above entry_price TP1_PCT (trigger_window_points db pair signal_ts)).map (·.1) ∧
      r.sl_hit_ts = (first_hit_at_or_below entry_price SL_PCT (trigger_window_points db pair signal_ts)).map (·.1) ∧
      (r.outcome = "TP1_FIRST" ↔ r.tp1_hit_ts ≠ none ∧
        (r.sl_hit_ts = none ∨ ∃ t u, r.tp1_hit_ts = some t ∧ r.sl_hit_ts = some u ∧ t < u)) ∧
      (r.outcome = "SL_FIRST" ↔ r.sl_hit_ts ≠ none ∧
        (r.tp1_hit_ts = none ∨ ∃ t u, r.tp1_hit_ts = some t ∧ r.sl_hit_ts = some u ∧ u < t)) ∧
      (r.outcome = "NEITHER" ∨ r.outcome = "TP1_FIRST" ∨ r.outcome = "SL_FIRST") ∧
      (r.outcome = "TP1_FIRST" →
        r.sl_hit_ts = none ∨ ∃ t u, r.tp1_hit_ts = some t ∧ r.sl_hit_ts = some u ∧ t < u) := by
  have hstep : run_trigger_analysis_step db pair signal_ts entry_price =
      .done (triggerCompute entry_price (trigger_window_points db pair signal_ts)) := by
    simp only [run_trigger_analysis_step]
    rw [if_neg (not_le.mpr hentry)]
    rw [if_neg (by simp only [TRIGGER_EVAL_MIN_SNAPSHOTS]; omega)]
  refine ⟨triggerCompute entry_price (trigger_window_points db pair signal_ts), hstep, ?_⟩
  have hspec := outcomeOf_spec
    ((first_hit_at_or_above entry_price TP1_PCT (trigger_window_points db pair signal_ts)).map (·.1))
    ((first_hit_at_or_below entry_price SL_PCT (trigger_window_points db pair signal_ts)).map (·.1))
  rw [triggerCompute_outcome, triggerCompute_tp1_hit, triggerCompute_sl_hit]
  exact ⟨rfl, rfl, hspec.1, hspec.2.1, hspec.2.2, fun h => (hspec.1.mp h).2⟩

/-- C3 witness: the theorem at a concrete two-point store where the second
point is a +50 % move from the entry price. -/
theorem C3_trigger_outcome_characterization_witness :
    0 < (100 : ℚ) ∧ 2 ≤ (trigger_window_points exampleDbTrigger "P" 2000000000000).length ∧
    ∃ r, run_trigger_analysis_step exampleDbTrigger "P" 2000000000000 100 = .done r ∧
      r.tp1_hit_ts = (first_hit_at_or_above 100 TP1_PCT (trigger_window_points exampleDbTrigger "P" 2000000000000)).map (·.1) ∧
      r.sl_hit_ts = (first_hit_at_or_below 100 SL_PCT (trigger_window_points exampleDbTrigger "P" 2000000000000)).map (·.1) ∧
      (r.outcome = "TP1_FIRST" ↔ r.tp1_hit_ts ≠ none ∧
        (r.sl_hit_ts = none ∨ ∃ t u, r.tp1_hit_ts = some t ∧ r.sl_hit_ts = some u ∧ t < u)) ∧
      (r.outcome = "SL_FIRST" ↔ r.sl_hit_ts ≠ none ∧
        (r.tp1_hit_ts = none ∨ ∃ t u, r.tp1_hit_ts = some t ∧ r.sl_hit_ts = some u ∧ u < t)) ∧
      (r.outcome = "NEITHER" ∨ r.outcome = "TP1_FIRST" ∨ r.outcome = "SL_FIRST") ∧
      (r.outcome = "TP1_FIRST" →
        r.sl_hit_ts = none ∨ ∃ t u, r.tp1_hit_ts = some t ∧ r.sl_hit_ts = some u ∧ t < u) :=
  ⟨by norm_num, by decide,
   C3_trigger_outcome_characterization exampleDbTrigger "P" 2000000000000 100
     (by norm_num) (by decide)⟩

/-- The post-TP1 block in the TP1_FIRST case: the filtered subset is
nonempty (it contains the TP1 point), bu_hit_after_tp1 is 0 or 1, and
post_tp1_max_pct is at least the TP1 threshold. -/
theorem postOf_tp1_spec (entry : ℚ) (pcts : List (Int × ℚ × ℚ)) (t0 : Int) (p0 pc0 : ℚ)
    (tpp : Option ℚ) (hmem : (t0, p0, pc0) ∈ pcts) (hpc : TP1_PCT ≤ pc0) :
    pcts.filter (fun q => decide (q.1 ≥ t0)) ≠ [] ∧
    ((postOf entry pcts "TP1_FIRST" (some t0) tpp).1 = some 0 ∨
      (postOf entry pcts "TP1_FIRST" (some t0) tpp).1 = some 1) ∧
    ∃ m, (postOf entry pcts "TP1_FIRST" (some t0) tpp).2.1 = some m ∧ TP1_PCT ≤ m := by
  have hmem2 : (t0, p0, pc0) ∈ pcts.filter (fun q => decide (q.1 ≥ t0)) :=
    List.mem_filter.mpr ⟨hmem, by simp⟩
  cases hf : pcts.filter (fun q => decide (q.1 ≥ t0)) with
  | nil => rw [hf] at hmem2; cases hmem2
  | cons a rest =>
    rw [hf] at hmem2
    have hpostof : postOf entry pcts "TP1_FIRST" (some t0) tpp =
        (some (if (a :: rest).any (fun q => decide (q.2.1 ≤ entry)) then (1 : Int) else 0),
         qMax ((a :: rest).map (·.2.2)),
         qMax ((a :: rest).map (·.2.1))) := by
      show (if ("TP1_FIRST" : String) = "TP1_FIRST" then
          match pcts.filter (fun q => decide (q.1 ≥ t0)) with
          | [] =>
            (some (0 : Int),
             match tpp with
             | some tp => if tp ≠ 0 then some (pctOf entry tp) else none
             | none => none,
             tpp)
          | a :: rest =>
            (some (if (a :: rest).any (fun q => decide (q.2.1 ≤ entry)) then (1 : Int) else 0),
             qMax ((a :: rest).map (·.2.2)),
             qMax ((a :: rest).map (·.2.1)))
        else (none, none, none)) = _
      rw [if_pos rfl, hf]
    refine ⟨by simp, ?_, ?_⟩
    · rw [hpostof]
      cases (a :: rest).any (fun q => decide (q.2.1 ≤ entry)) with
      | false => left; rfl
      | true => right; rfl
    · rw [hpostof]
      have hq : qMax ((a :: rest).map (·.2.2)) =
          some ((rest.map (·.2.2)).foldl max a.2.2) := rfl
      refine ⟨(rest.map (·.2.2)).foldl max a.2.2, hq, ?_⟩
      have hmemmap : pc0 ∈ (a :: rest).map (·.2.2) := by
        have := List.mem_map_of_mem (fun q => q.2.2) hmem2
        simpa using this
      exact le_trans hpc ((qMax_spec hq).2 pc0 hmemmap)

/-- C10: any DONE trigger evaluation with outcome TP1_FIRST has a TP1
timestamp whose post-TP1 subset is nonempty (it contains the TP1 point), so
bu_hit_after_tp1 is 0 or 1 (never null) and post_tp1_max_pct is non-null and
at least +40 %; the empty-subset branch is unreachable. -/
theorem C10_tp1_first_post_fields
    (db : Db) (pair : String) (signal_ts : Int) (entry_price : ℚ) (r : TriggerResult)
    (hentry : 0 < entry_price)
    (hstep : run_trigger_analysis_step db pair signal_ts entry_price = .done r)
    (hout : r.outcome = "TP1_FIRST") :
    ∃ t0, r.tp1_hit_ts = some t0 ∧
      ((trigger_window_points db pair signal_ts).map fun q => (q.1, q.2, pctOf entry_price q.2)).filter
        (fun q => decide (q.1 ≥ t0)) ≠ [] ∧
      (r.bu_hit_after_tp1 = some 0 ∨ r.bu_hit_after_tp1 = some 1) ∧
      ∃ m, r.post_tp1_max_pct = some m ∧ TP1_PCT ≤ m := by
  simp only [run_trigger_analysis_step] at hstep
  rw [if_neg (not_le.mpr hentry)] at hstep
  by_cases hlen : (trigger_window_points db pair signal_ts).length < TRIGGER_EVAL_MIN_SNAPSHOTS
  · rw [if_pos hlen] at hstep
    cases hstep
  · rw [if_neg hlen] at hstep
    injection hstep with hr
    subst hr
    rw [triggerCompute_outcome] at hout
    cases hT : first_hit_at_or_above entry_price TP1_PCT (trigger_window_points db pair signal_ts) with
    | none =>
      rw [hT] at hout
      cases hS : first_hit_at_or_below entry_price SL_PCT (trigger_window_points db pair signal_ts) with
      | none => rw [hS] at hout; simp [outcomeOf] at hout
      | some b => rw [hS] at hout; simp [outcomeOf] at hout
    | some a =>
      obtain ⟨t0, p0⟩ := a
      have hpc : TP1_PCT ≤ pctOf entry_price p0 := by
        have := List.find?_some hT
        simpa using this
      have hmemp : (t0, p0) ∈ trigger_window_points db pair signal_ts :=
        List.mem_of_find?_eq_some hT
      have hmempc : (t0, p0, pctOf entry_price p0) ∈
          (trigger_window_points db pair signal_ts).map fun q => (q.1, q.2, pctOf entry_price q.2) := by
        have := List.mem_map_of_mem (fun q => (q.1, q.2, pctOf entry_price q.2)) hmemp
        simpa using this
      have hpost := postOf_tp1_spec entry_price
        ((trigger_window_points db pair signal_ts).map fun q => (q.1, q.2, pctOf entry_price q.2))
        t0 p0 (pctOf entry_price p0) (some p0) hmempc hpc
      refine ⟨t0, ?_, hpost.1, ?_, ?_⟩
      · rw [triggerCompute_tp1_hit, hT]
        rfl
      · rw [triggerCompute_bu, hout, hT]
        exact hpost.2.1
      · rw [triggerCompute_post_max, hout, hT]
        exact hpost.2.2

/-- C10 witness: the theorem at the concrete two-point store (the +50 % point
is the TP1 hit, the post-TP1 maximum is +50 %). -/
theorem C10_tp1_first_post_fields_witness :
    ∃ t0, (triggerCompute 100 (trigger_window_points exampleDbTrigger "P" 2000000000000)).tp1_hit_ts = some t0 ∧
      ((trigger_window_points exampleDbTrigger "P" 2000000000000).map fun q => (q.1, q.2, pctOf 100 q.2)).filter
        (fun q => decide (q.1 ≥ t0)) ≠ [] ∧
      ((triggerCompute 100 (trigger_window_points exampleDbTrigger "P" 2000000000000)).bu_hit_after_tp1 = some 0 ∨
        (triggerCompute 100 (trigger_window_points exampleDbTrigger "P" 2000000000000)).bu_hit_after_tp1 = some 1) ∧
      ∃ m, (triggerCompute 100 (trigger_window_points exampleDbTrigger "P" 2000000000000)).post_tp1_max_pct = some m ∧
        TP1_PCT ≤ m :=
  C10_tp1_first_post_fields exampleDbTrigger "P" 2000000000000 100
    (triggerCompute 100 (trigger_window_points exampleDbTrigger "P" 2000000000000))
    (by norm_num)
    (by simp only [run_trigger_analysis_step]
        rw [if_neg (by norm_num)]
        rw [if_neg (by decide)])
    (by rw [triggerCompute_outcome]
        have hpe : trigger_window_points exampleDbTrigger "P" 2000000000000 =
            [((2000000000000 : Int), (100 : ℚ)), (2000000001000, 150)] := by decide
        have hfa : first_hit_at_or_above 100 TP1_PCT
            [((2000000000000 : Int), (100 : ℚ)), (2000000001000, 150)] =
            some (2000000001000, 150) := by
          norm_num [first_hit_at_or_above, List.find?, pctOf, TP1_PCT]
        have hfb : first_hit_at_or_below 100 SL_PCT
            [((2000000000000 : Int), (100 : ℚ)), (2000000001000, 150)] = none := by
          norm_num [first_hit_at_or_below, List.find?, pctOf, SL_PCT]
        rw [hpe, hfa, hfb]
        rfl)

/-! ### Stage lemmas for the dump state machine -/

theorem dumpBottoming_cases (two_rows : List Snap) (e : DumpEntry) :
    dumpBottoming two_rows e = e ∨
    dumpBottoming two_rows e = { e with state := "BOTTOMING" } := by
  rcases two_rows with _ | ⟨ls, _ | ⟨ps, tr⟩⟩
  · left; rfl
  · left; rfl
  · simp only [dumpBottoming]
    by_cases hd : e.state = "DUMPING"
    · rw [if_pos hd]
      by_cases hc : ls.price_usd.getD 0 ≥ e.low_price * (1003 / 1000) ∧
          ps.price_usd.getD 0 ≥ e.low_price * (1003 / 1000) ∧
          ((ls.txns_m5_buys.getD 0 : Int) : ℚ) ≥ ((ls.txns_m5_sells.getD 0 : Int) : ℚ) * (8 / 10)
      · right; rw [if_pos hc]
      · left; rw [if_neg hc]
    · left; rw [if_neg hd]

theorem dumpSignalStamp_cases (last_price : ℚ) (last_ts : Int) (prev_vol vol : ℚ)
    (buys sells : Int) (e3 : DumpEntry) :
    dumpSignalStamp last_price last_ts prev_vol vol buys sells e3 = e3 ∨
    (e3.signal_ts = none ∧
      dumpSignalStamp last_price last_ts prev_vol vol buys sells e3 =
        { e3 with state := "SIGNAL", signal_ts := some last_ts,
                  signal_price := some last_price }) := by
  unfold dumpSignalStamp
  by_cases hc : last_price ≥ e3.low_price * (101 / 100) ∧ buys > sells ∧ vol ≥ max prev_vol 300
  · rw [if_pos hc]
    by_cases hn : e3.signal_ts = none
    · right; rw [if_pos hn]; exact ⟨hn, rfl⟩
    · left; rw [if_neg hn]
  · left; rw [if_neg hc]

/-- Over a non-SIGNAL row, the transition block keeps peak/low/last/drop and
stamps both signal fields whenever it moves the row to SIGNAL. -/
theorem dumpTransitions_spec (last_price : ℚ) (last_ts : Int) (two_rows : List Snap)
    (vol : ℚ) (buys sells : Int) (e : DumpEntry) (hstate : e.state ≠ "SIGNAL") :
    (dumpTransitions last_price last_ts two_rows vol buys sells e).peak_price = e.peak_price ∧
    (dumpTransitions last_price last_ts two_rows vol buys sells e).low_price = e.low_price ∧
    (dumpTransitions last_price last_ts two_rows vol buys sells e).last_price = e.last_price ∧
    (dumpTransitions last_price last_ts two_rows vol buys sells e).drop_pct = e.drop_pct ∧
    ((dumpTransitions last_price last_ts two_rows vol buys sells e).state = "SIGNAL" →
      (dumpTransitions last_price last_ts two_rows vol buys sells e).signal_ts = some last_ts ∧
      (dumpTransitions last_price last_ts two_rows vol buys sells e).signal_price = some last_price) := by
  unfold dumpTransitions
  rcases dumpBottoming_cases two_rows e with hb | hb <;> rw [hb]
  · rcases dumpSignalStamp_cases last_price last_ts (dumpPrevVol two_rows)
        vol buys sells e with hs | ⟨_, hs⟩ <;> rw [hs]
    · exact ⟨rfl, rfl, rfl, rfl, fun hx => absurd hx hstate⟩
    · exact ⟨rfl, rfl, rfl, rfl, fun _ => ⟨rfl, rfl⟩⟩
  · rcases dumpSignalStamp_cases last_price last_ts (dumpPrevVol two_rows)
        vol buys sells { e with state := "BOTTOMING" } with hs | ⟨_, hs⟩ <;> rw [hs]
    · refine ⟨rfl, rfl, rfl, rfl, fun hx => ?_⟩
      exact absurd hx (by simp)
    · exact ⟨rfl, rfl, rfl, rfl, fun _ => ⟨rfl, rfl⟩⟩

theorem dumpUpsert_some_spec (last_price : ℚ) (last_ts : Int) (volume_m5 : Option ℚ)
    (buys_m5 sells_m5 : Option Int) (peak_price : ℚ) (peak_ts : Int)
    (drop_pct liq vol : ℚ) (sells : Int) (now_ms : Int) (e : DumpEntry) :
    ∃ e1, dumpUpsert last_price last_ts volume_m5 buys_m5 sells_m5 peak_price peak_ts
        drop_pct liq vol sells now_ms (some e) = some e1 ∧
      e1.state = e.state ∧ e1.signal_ts = e.signal_ts ∧ e1.signal_price = e.signal_price ∧
      e1.last_price = last_price ∧ e1.drop_pct = drop_pct ∧
      peak_price ≤ e1.peak_price ∧ e.peak_price ≤ e1.peak_price ∧
      (e1.low_price = last_price ∨ e1.low_price = e.low_price) := by
  by_cases hpk : e.peak_price < peak_price <;> by_cases hlow : last_price < e.low_price
  · refine ⟨{ e with
              updated_at_ms := now_ms,
              last_price := last_price,
              last_ts := last_ts,
              drop_pct := drop_pct,
              volume_m5 := volume_m5,
              buys_m5 := buys_m5,
              sells_m5 := sells_m5,
              peak_price := peak_price,
              peak_ts := peak_ts,
              low_price := last_price,
              low_ts := last_ts }, ?_,
      rfl, rfl, rfl, rfl, rfl, le_refl _, le_of_lt hpk, Or.inl rfl⟩
    simp only [dumpUpsert]
    rw [if_pos hpk, if_pos hlow]
  · refine ⟨{ e with
              updated_at_ms := now_ms,
              last_price := last_price,
              last_ts := last_ts,
              drop_pct := drop_pct,
              volume_m5 := volume_m5,
              buys_m5 := buys_m5,
              sells_m5 := sells_m5,
              peak_price := peak_price,
              peak_ts := peak_ts }, ?_,
      rfl, rfl, rfl, rfl, rfl, le_refl _, le_of_lt hpk, Or.inr rfl⟩
    simp only [dumpUpsert]
    rw [if_pos hpk, if_neg hlow]
  · refine ⟨{ e with
              updated_at_ms := now_ms,
              last_price := last_price,
              last_ts := last_ts,
              drop_pct := drop_pct,
              volume_m5 := volume_m5,
              buys_m5 := buys_m5,
              sells_m5 := sells_m5,
              low_price := last_price,
              low_ts := last_ts }, ?_,
      rfl, rfl, rfl, rfl, rfl, not_lt.mp hpk, le_refl _, Or.inl rfl⟩
    simp only [dumpUpsert]
    rw [if_neg hpk, if_pos hlow]
  · refine ⟨{ e with
              updated_at_ms := now_ms,
              last_price := last_price,
              last_ts := last_ts,
              drop_pct := drop_pct,
              volume_m5 := volume_m5,
              buys_m5 := buys_m5,
              sells_m5 := sells_m5 }, ?_,
      rfl, rfl, rfl, rfl, rfl, not_lt.mp hpk, le_refl _, Or.inr rfl⟩
    simp only [dumpUpsert]
    rw [if_neg hpk, if_neg hlow]

theorem dumpUpsert_none_spec (last_price : ℚ) (last_ts : Int) (volume_m5 : Option ℚ)
    (buys_m5 sells_m5 : Option Int) (peak_price : ℚ) (peak_ts : Int)
    (drop_pct liq vol : ℚ) (sells : Int) (now_ms : Int) :
    dumpUpsert last_price last_ts volume_m5 buys_m5 sells_m5 peak_price peak_ts
        drop_pct liq vol sells now_ms none = none ∨
    ∃ e1, dumpUpsert last_price last_ts volume_m5 buys_m5 sells_m5 peak_price peak_ts
        drop_pct liq vol sells now_ms none = some e1 ∧
      e1.state = "DUMPING" ∧ e1.signal_ts = none ∧ e1.signal_price = none ∧
      e1.drop_pct = drop_pct ∧ e1.low_price = last_price ∧ e1.last_price = last_price ∧
      e1.peak_price = peak_price := by
  by_cases h : drop_pct < DROP_THRESHOLD ∨ liq < LIQ_MIN ∨ vol < VOL_M5_MIN ∨ sells < SELLS_MIN
  · left; simp only [dumpUpsert]; rw [if_pos h]
  · right
    refine ⟨{ state := "DUMPING",
              peak_price := peak_price,
              peak_ts := peak_ts,
              low_price := last_price,
              low_ts := last_ts,
              last_price := last_price,
              last_ts := last_ts,
              drop_pct := drop_pct,
              volume_m5 := volume_m5,
              buys_m5 := buys_m5,
              sells_m5 := sells_m5,
              signal_ts := none,
              signal_price := none,
              added_at_ms := now_ms,
              updated_at_ms := now_ms }, ?_, rfl, rfl, rfl, rfl, rfl, rfl, rfl⟩
    simp only [dumpUpsert]
    rw [if_neg h]

/-- The drop_pct written by the update is within [0, 100] whenever
0 < last ≤ peak. -/
theorem drop_pct_bounds (pp lp : ℚ) (hpp : 0 < pp) (hlp : 0 < lp) (hle : lp ≤ pp) :
    0 ≤ (pp - lp) / pp * 100 ∧ (pp - lp) / pp * 100 ≤ 100 := by
  have h1 : 0 ≤ (pp - lp) / pp := div_nonneg (by linarith) (le_of_lt hpp)
  have h2 : (pp - lp) / pp ≤ 1 := (div_le_one hpp).mpr (by linarith)
  constructor
  · linarith
  · nlinarith

/-- C4: one invocation of the per-snapshot dump-watchlist update preserves
the row predicate (drop_pct in [0, 100], peak above low and last, SIGNAL rows
carry their stamp), and on a row already in SIGNAL it never changes
signal_ts or signal_price, which stay non-null.  The hypotheses record what
the database guarantees about the reads: the peak query returns a positive
price at least the latest price, and the existing row satisfied the
predicate. -/
theorem C4_dump_invariant_preserved
    (last_row : Snap) (peak_row : Option (ℚ × Int)) (two_rows : List Snap)
    (liq : ℚ) (now_ms : Int) (existing : Option DumpEntry)
    (hpeak : ∀ pp pts, peak_row = some (pp, pts) →
      0 < pp ∧ ∀ lp, last_row.price_usd = some lp → lp ≤ pp)
    (hinv : ∀ e, existing = some e → DumpInv e) :
    (∀ e2, update_dump_watchlist_for_snapshot last_row peak_row two_rows liq now_ms existing = some e2 →
      DumpInv e2) ∧
    (∀ e e2, existing = some e → e.state = "SIGNAL" →
      update_dump_watchlist_for_snapshot last_row peak_row two_rows liq now_ms existing = some e2 →
      e2.signal_ts = e.signal_ts ∧ e2.signal_price = e.signal_price ∧
      e2.signal_ts ≠ none ∧ e2.signal_price ≠ none) := by
  have hbase : update_dump_watchlist_for_snapshot last_row peak_row two_rows liq now_ms existing = existing →
      (∀ e2, update_dump_watchlist_for_snapshot last_row peak_row two_rows liq now_ms existing = some e2 →
        DumpInv e2) ∧
      (∀ e e2, existing = some e → e.state = "SIGNAL" →
        update_dump_watchlist_for_snapshot last_row peak_row two_rows liq now_ms existing = some e2 →
        e2.signal_ts = e.signal_ts ∧ e2.signal_price = e.signal_price ∧
        e2.signal_ts ≠ none ∧ e2.signal_price ≠ none) := by
    intro hupd
    constructor
    · intro e2 h
      rw [hupd] at h
      exact hinv e2 h
    · intro e e2 hex hsig h
      rw [hupd, hex] at h
      obtain rfl : e = e2 := Option.some_inj.mp h
      have hi := hinv e hex
      exact ⟨rfl, rfl, (hi.2.2.2.2 hsig).1, (hi.2.2.2.2 hsig).2⟩
  cases hpr : last_row.price_usd with
  | none => exact hbase (by simp only [update_dump_watchlist_for_snapshot, hpr])
  | some lp =>
    by_cases hle : lp ≤ 0
    · exact hbase (by simp only [update_dump_watchlist_for_snapshot, hpr]; rw [if_pos hle])
    · cases hpk : peak_row with
      | none =>
        rw [hpk] at hbase
        exact hbase (by simp only [update_dump_watchlist_for_snapshot, hpr]; rw [if_neg hle])
      | some pr =>
        obtain ⟨pp, pts⟩ := pr
        obtain ⟨hpp, hlpW⟩ := hpeak pp pts hpk
        have hlppp : lp ≤ pp := hlpW lp hpr
        have hlp0 : 0 < lp := not_le.mp hle
        obtain ⟨hd0, hd100⟩ := drop_pct_bounds pp lp hpp hlp0 hlppp
        cases hex : existing with
        | none =>
          have hred : update_dump_watchlist_for_snapshot last_row (some (pp, pts)) two_rows liq now_ms none =
              (match dumpUpsert lp last_row.snapshot_ts last_row.volume_m5 last_row.txns_m5_buys
                  last_row.txns_m5_sells pp pts ((pp - lp) / pp * 100) liq ((last_row.volume_m5).getD 0)
                  ((last_row.txns_m5_sells).getD 0) now_ms none with
               | none => none
               | some e =>
                 if e.state = "SIGNAL" ∧ e.signal_ts ≠ none then some e
                 else some (dumpTransitions lp last_row.snapshot_ts two_rows ((last_row.volume_m5).getD 0)
                   ((last_row.txns_m5_buys).getD 0) ((last_row.txns_m5_sells).getD 0) e)) := by
            simp only [update_dump_watchlist_for_snapshot, hpr]
            rw [if_neg hle]
          rcases dumpUpsert_none_spec lp last_row.snapshot_ts last_row.volume_m5 last_row.txns_m5_buys
              last_row.txns_m5_sells pp pts ((pp - lp) / pp * 100) liq ((last_row.volume_m5).getD 0)
              ((last_row.txns_m5_sells).getD 0) now_ms with hn | hs
          · constructor
            · intro e2 h
              rw [hred, hn] at h
              cases h
            · intro e e2 hex2
              cases hex2
          · obtain ⟨e1, hup, hst, hsts, hstp, hdrop, hlow, hlast, hpkk⟩ := hs
            have hstate1 : e1.state ≠ "SIGNAL" := by rw [hst]; decide
            have hupd : update_dump_watchlist_for_snapshot last_row (some (pp, pts)) two_rows liq now_ms none =
                some (dumpTransitions lp last_row.snapshot_ts two_rows ((last_row.volume_m5).getD 0)
                  ((last_row.txns_m5_buys).getD 0) ((last_row.txns_m5_sells).getD 0) e1) := by
              rw [hred, hup]
              exact if_neg (by rw [hst]; simp)
            obtain ⟨hp, hl, hla, hdp, hsigl⟩ := dumpTransitions_spec lp last_row.snapshot_ts two_rows
              ((last_row.volume_m5).getD 0) ((last_row.txns_m5_buys).getD 0)
              ((last_row.txns_m5_sells).getD 0) e1 hstate1
            constructor
            · intro e2 h
              rw [hupd] at h
              obtain rfl := Option.some_inj.mp h
              refine ⟨?_, ?_, ?_, ?_, ?_⟩
              · rw [hdp, hdrop]; exact hd0
              · rw [hdp, hdrop]; exact hd100
              · rw [hl, hp, hlow, hpkk]; exact hlppp
              · rw [hla, hp, hlast, hpkk]; exact hlppp
              · intro hss
                obtain ⟨h1, h2⟩ := hsigl hss
                rw [h1, h2]
                exact ⟨by simp, by simp⟩
            · intro e e2 hex2
              cases hex2
        | some e =>
          have hi := hinv e hex
          have hred : update_dump_watchlist_for_snapshot last_row (some (pp, pts)) two_rows liq now_ms (some e) =
              (match dumpUpsert lp last_row.snapshot_ts last_row.volume_m5 last_row.txns_m5_buys
                  last_row.txns_m5_sells pp pts ((pp - lp) / pp * 100) liq ((last_row.volume_m5).getD 0)
                  ((last_row.txns_m5_sells).getD 0) now_ms (some e) with
               | none => none
               | some e1 =>
                 if e1.state = "SIGNAL" ∧ e1.signal_ts ≠ none then some e1
                 else some (dumpTransitions lp last_row.snapshot_ts two_rows ((last_row.volume_m5).getD 0)
                   ((last_row.txns_m5_buys).getD 0) ((last_row.txns_m5_sells).getD 0) e1)) := by
            simp only [update_dump_watchlist_for_snapshot, hpr]
            rw [if_neg hle]
          obtain ⟨e1, hup, hst, hsts, hstp, hlast, hdrop, hpk1, hpk2, hlowc⟩ :=
            dumpUpsert_some_spec lp last_row.snapshot_ts last_row.volume_m5 last_row.txns_m5_buys
              last_row.txns_m5_sells pp pts ((pp - lp) / pp * 100) liq ((last_row.volume_m5).getD 0)
              ((last_row.txns_m5_sells).getD 0) now_ms e
          have hinv1core : 0 ≤ e1.drop_pct ∧ e1.drop_pct ≤ 100 ∧ e1.low_price ≤ e1.peak_price ∧
              e1.last_price ≤ e1.peak_price := by
            refine ⟨?_, ?_, ?_, ?_⟩
            · rw [hdrop]; exact hd0
            · rw [hdrop]; exact hd100
            · rcases hlowc with h | h
              · rw [h]; exact le_trans hlppp hpk1
              · rw [h]; exact le_trans hi.2.2.1 hpk2
            · rw [hlast]; exact le_trans hlppp hpk1
          by_cases hsig : e1.state = "SIGNAL" ∧ e1.signal_ts ≠ none
          · have hupd : update_dump_watchlist_for_snapshot last_row (some (pp, pts)) two_rows liq now_ms (some e) =
                some e1 := by
              rw [hred, hup]
              exact if_pos hsig
            constructor
            · intro e2 h
              rw [hupd] at h
              obtain rfl := Option.some_inj.mp h
              refine ⟨hinv1core.1, hinv1core.2.1, hinv1core.2.2.1, hinv1core.2.2.2, ?_⟩
              intro hs2
              rw [hst] at hs2
              obtain ⟨n1, n2⟩ := hi.2.2.2.2 hs2
              constructor
              · rw [hsts]; exact n1
              · rw [hstp]; exact n2
            · intro e0 e2 hex2 hsig0 h
              obtain rfl : e = e0 := Option.some_inj.mp hex2
              rw [hupd] at h
              obtain rfl := Option.some_inj.mp h
              refine ⟨hsts, hstp, ?_, ?_⟩
              · rw [hsts]; exact (hi.2.2.2.2 hsig0).1
              · rw [hstp]; exact (hi.2.2.2.2 hsig0).2
          · have hstate1 : e1.state ≠ "SIGNAL" := by
              intro hx
              have hx2 : e.state = "SIGNAL" := by rw [← hst]; exact hx
              exact hsig ⟨hx, by rw [hsts]; exact (hi.2.2.2.2 hx2).1⟩
            have hupd : update_dump_watchlist_for_snapshot last_row (some (pp, pts)) two_rows liq now_ms (some e) =
                some (dumpTransitions lp last_row.snapshot_ts two_rows ((last_row.volume_m5).getD 0)
                  ((last_row.txns_m5_buys).getD 0) ((last_row.txns_m5_sells).getD 0) e1) := by
              rw [hred, hup]
              exact if_neg hsig
            obtain ⟨hp, hl, hla, hdp, hsigl⟩ := dumpTransitions_spec lp last_row.snapshot_ts two_rows
              ((last_row.volume_m5).getD 0) ((last_row.txns_m5_buys).getD 0)
              ((last_row.txns_m5_sells).getD 0) e1 hstate1
            constructor
            · intro e2 h
              rw [hupd] at h
              obtain rfl := Option.some_inj.mp h
              refine ⟨?_, ?_, ?_, ?_, ?_⟩
              · rw [hdp]; exact hinv1core.1
              · rw [hdp]; exact hinv1core.2.1
              · rw [hl, hp]; exact hinv1core.2.2.1
              · rw [hla, hp]; exact hinv1core.2.2.2
              · intro hss
                obtain ⟨h1, h2⟩ := hsigl hss
                rw [h1, h2]
                exact ⟨by simp, by simp⟩
            · intro e0 e2 hex2 hsig0 h
              obtain rfl : e = e0 := Option.some_inj.mp hex2
              have hx : e1.state = "SIGNAL" := by rw [hst]; exact hsig0
              exact absurd hx hstate1

/-- C4 witness: the theorem applied to a concrete admission (latest price 1,
peak 4 so drop 75 %, liquidity 20000, volume_m5 600, sells_m5 6, no existing
row). -/
theorem C4_dump_invariant_preserved_witness :
    (∀ e2, update_dump_watchlist_for_snapshot ⟨"P", some 1, some 600, some 2, some 6, 100⟩
        (some (4, 50)) [] 20000 1000 none = some e2 → DumpInv e2) ∧
    (∀ e e2, (none : Option DumpEntry) = some e → e.state = "SIGNAL" →
      update_dump_watchlist_for_snapshot ⟨"P", some 1, some 600, some 2, some 6, 100⟩
        (some (4, 50)) [] 20000 1000 none = some e2 →
      e2.signal_ts = e.signal_ts ∧ e2.signal_price = e.signal_price ∧
      e2.signal_ts ≠ none ∧ e2.signal_price ≠ none) :=
  C4_dump_invariant_preserved ⟨"P", some 1, some 600, some 2, some 6, 100⟩
    (some (4, 50)) [] 20000 1000 none
    (by intro pp pts h
        injection h with h1
        injection h1 with h2 h3
        subst h2
        subst h3
        refine ⟨by norm_num, ?_⟩
        intro lp hl
        injection hl with h4
        subst h4
        norm_num)
    (by intro e h
        cases h)

end Screener
